import Mathlib

/-!
Verification of go-homework4, a blogging backend on gin, gorm and golang-jwt.

A shallow embedding of `auth.go`, `db.go`, `models.go`, `middleware.go`,
`handlers.go` and the route table of `main.go`.

* Go strings are Lean strings; `uint` and `int` are 64 bit wide.
* `time.Time` is a number of nanoseconds.
* The relational store behind `gorm` is an explicit state `DB` (three tables,
  their AUTOINCREMENT counters and the connection's foreign key setting);
  a handler is a function from the request and the store to an outcome and
  the next store.  Storage failures other than the ones a relational engine
  raises by itself (record not found, constraint violations, a delete without
  a WHERE clause) are not part of the model.  The rows of a `DB` are Go
  values; a write that leaves a row which scans back into no Go value has no
  `DB` as its result, and the operation says so.
* `bcrypt`, the HMAC primitive and the compact serialisation of a JWT are
  parameters (`Lib`).
-/

namespace Blog

deriving instance DecidableEq for Except

/-! ## strconv, strings -/

/-- Nanoseconds, the resolution of `time.Time`. -/
abbrev Time := Nat

/-- One second, `time.Second`. -/
def second : Nat := 1000000000

/-- One hour, `time.Hour`. -/
def hour : Nat := 3600 * second

/-- `Time.Truncate(d)`: round down to a multiple of `d`. -/
def truncate (t : Time) (d : Nat) : Time := t - t % d

/-- Value of a decimal digit. -/
def digitVal (c : Char) : Option Nat :=
  if 48 ≤ c.toNat ∧ c.toNat ≤ 57 then some (c.toNat - 48) else none

/-- Accumulate decimal digits; `none` on a character that is not a digit. -/
def parseDigits : List Char → Nat → Option Nat
  | [], acc => some acc
  | c :: cs, acc =>
    match digitVal c with
    | some d => parseDigits cs (acc * 10 + d)
    | none => none

/-- `strconv.ParseUint(s, 10, 64)`: a non-empty run of decimal digits whose
value fits 64 bits; `none` stands for the returned error. -/
def ParseUint (s : String) : Option Nat :=
  match s.data with
  | [] => none
  | cs =>
    match parseDigits cs 0 with
    | some n => if n < 2 ^ 64 then some n else none
    | none => none

/-- `strconv.Atoi(s)`: an optional sign, then a non-empty run of decimal
digits, the value within the range of a 64 bit `int`. -/
def Atoi (s : String) : Option Int :=
  match s.data with
  | [] => none
  | '-' :: cs =>
    (match cs with
     | [] => none
     | _ =>
       match parseDigits cs 0 with
       | some n => if n ≤ 2 ^ 63 then some (-(n : Int)) else none
       | none => none)
  | '+' :: cs =>
    (match cs with
     | [] => none
     | _ =>
       match parseDigits cs 0 with
       | some n => if n < 2 ^ 63 then some (n : Int) else none
       | none => none)
  | cs =>
    match parseDigits cs 0 with
    | some n => if n < 2 ^ 63 then some (n : Int) else none
    | none => none

/-- Lower-case one character.  `strings.ToLower` also maps letters outside
ASCII; none of those is mapped to a letter of the word bearer, so for the
comparison made in `authMiddleware` the ASCII mapping decides the same. -/
def lowerChar (c : Char) : Char :=
  if 65 ≤ c.toNat ∧ c.toNat ≤ 90 then Char.ofNat (c.toNat + 32) else c

/-- `strings.ToLower`. -/
def ToLower (s : String) : String := String.mk (s.data.map lowerChar)

/-- Cut a character list at its first space. -/
def cutAtSpace : List Char → Option (List Char × List Char)
  | [] => none
  | c :: cs =>
    if c = ' ' then some ([], cs)
    else
      match cutAtSpace cs with
      | some (a, b) => some (c :: a, b)
      | none => none

/-- `strings.SplitN(s, " ", 2)`: the text before the first space and the text
after it, or the whole string alone when it has no space. -/
def SplitN2 (s : String) : List String :=
  match cutAtSpace s.data with
  | some (a, b) => [String.mk a, String.mk b]
  | none => [s]

/-! ## models.go -/

/-- A row of `users`.  The back-references `Posts` and `Comments` are never
loaded by any handler and are left out. -/
structure User where
  ID : Nat
  Username : String
  Password : String
  Email : String
  CreatedAt : Time
  UpdatedAt : Time
deriving DecidableEq, Repr

/-- The zero value of `User`. -/
def User.zero : User := ⟨0, "", "", "", 0, 0⟩

/-- A row of `posts`; `User` is the association filled by `Preload("User")`,
the zero value otherwise. -/
structure Post where
  ID : Nat
  Title : String
  Content : String
  UserID : Nat
  User : User
  CreatedAt : Time
  UpdatedAt : Time
deriving DecidableEq, Repr

/-- A row of `comments`; `User` as in `Post`.  The `Post` association carries
the constraint `OnDelete:CASCADE` on `post_id` and is never loaded. -/
structure Comment where
  ID : Nat
  Content : String
  UserID : Nat
  User : User
  PostID : Nat
  CreatedAt : Time
deriving DecidableEq, Repr

/-! ## db.go and the gorm operations the handlers call -/

/-- Errors of the persistence layer. -/
inductive DBError where
  | ErrRecordNotFound
  | ErrMissingWhereClause
  | constraintFailed (what : String)
deriving DecidableEq, Repr

/-- The store: the three tables in insertion order, the AUTOINCREMENT
counter of each, and whether the connection enforces foreign keys
(`PRAGMA foreign_keys`). -/
structure DB where
  foreignKeys : Bool
  users : List User
  posts : List Post
  comments : List Comment
  userSeq : Nat
  postSeq : Nat
  commentSeq : Nat
deriving DecidableEq, Repr

/-- What a go-sqlite3 data source name says about foreign keys: enforcement
is switched on by a `_foreign_keys` (or `_fk`) parameter with a true value
and is off, the default of SQLite, without one. -/
def dsnForeignKeys (dsn : String) : Bool :=
  ["_foreign_keys=1", "_foreign_keys=yes", "_foreign_keys=true", "_foreign_keys=on",
    "_fk=1", "_fk=yes", "_fk=true", "_fk=on"].any (fun p => decide (p.data <:+: dsn.data))

/-- The connection `initDB` opens: `gorm.Open(sqlite.Open("blog.db"), ...)`
followed by `AutoMigrate`, on a fresh file. -/
def initDB : DB :=
  ⟨dsnForeignKeys "blog.db", [], [], [], 0, 0, 0⟩

/-- The row with the least key, the earliest one among equals:
`ORDER BY id LIMIT 1`. -/
def firstByKey {α : Type} (key : α → Nat) : List α → Option α
  | [] => none
  | a :: as =>
    match firstByKey key as with
    | some b => if key b < key a then some b else some a
    | none => some a

/-- The largest key in a table. -/
def maxKey {α : Type} (key : α → Nat) (rows : List α) : Nat :=
  rows.foldr (fun r m => max (key r) m) 0

/-- The id an AUTOINCREMENT column gives the next row. -/
def nextID {α : Type} (key : α → Nat) (rows : List α) (seq : Nat) : Nat :=
  max (maxKey key rows) seq + 1

/-- `db.Where(cond).First(&user)`. -/
def DB.firstUser (db : DB) (cond : User → Bool) : Except DBError User :=
  match firstByKey User.ID (db.users.filter cond) with
  | some u => .ok u
  | none => .error .ErrRecordNotFound

/-- `db.First(&post, id)`: selection by primary key. -/
def DB.firstPost (db : DB) (id : Nat) : Except DBError Post :=
  match firstByKey Post.ID (db.posts.filter (fun p => p.ID == id)) with
  | some p => .ok p
  | none => .error .ErrRecordNotFound

/-- `db.Create(&user)` for a value without id: the unique indexes on
`username` and `email` are checked, the id and both timestamps are set. -/
def DB.createUser (db : DB) (now : Time) (u : User) : Except DBError (User × DB) :=
  if db.users.any (fun x => x.Username == u.Username) then
    .error (.constraintFailed "UNIQUE constraint failed: users.username")
  else if db.users.any (fun x => x.Email == u.Email) then
    .error (.constraintFailed "UNIQUE constraint failed: users.email")
  else
    let id := nextID User.ID db.users db.userSeq
    let row : User := { u with ID := id, CreatedAt := now, UpdatedAt := now }
    .ok (row, { db with users := db.users ++ [row], userSeq := id })

/-- Whether a `uint` fits the signed 64 bit integer column it is written to.
The driver converts a larger value to a negative number, which does not scan
back into a `uint`. -/
def fitsColumn (n : Nat) : Bool := decide (n < 2 ^ 63)

/-- `db.Create(&post)` for a value without id.  With foreign keys enforced the
author must be a stored user.  The store afterwards is `none` when `user_id`
does not fit its column: the row is written with a negative `user_id`, so it
is not the row of any `Post` value and the store is not a `DB` value. -/
def DB.createPost (db : DB) (now : Time) (p : Post) : Except DBError (Post × Option DB) :=
  if db.foreignKeys && !(fitsColumn p.UserID && db.users.any (fun u => u.ID == p.UserID)) then
    .error (.constraintFailed "FOREIGN KEY constraint failed")
  else
    let id := nextID Post.ID db.posts db.postSeq
    let row : Post := { p with ID := id, CreatedAt := now, UpdatedAt := now }
    if fitsColumn p.UserID then
      .ok (row, some { db with posts := db.posts ++ [row], postSeq := id })
    else .ok (row, none)

/-- `db.Create(&comment)` for a value without id; as for `DB.createPost`. -/
def DB.createComment (db : DB) (now : Time) (c : Comment) :
    Except DBError (Comment × Option DB) :=
  if db.foreignKeys &&
      !(fitsColumn c.UserID && db.users.any (fun u => u.ID == c.UserID) &&
        db.posts.any (fun p => p.ID == c.PostID)) then
    .error (.constraintFailed "FOREIGN KEY constraint failed")
  else
    let id := nextID Comment.ID db.comments db.commentSeq
    let row : Comment := { c with ID := id, CreatedAt := now }
    if fitsColumn c.UserID then
      .ok (row, some { db with comments := db.comments ++ [row], commentSeq := id })
    else .ok (row, none)

/-- `db.Save(&post)`: a value without primary key is created; otherwise every
column of the row with that key is overwritten and `updated_at` is set. -/
def DB.savePost (db : DB) (now : Time) (p : Post) : Except DBError (Post × Option DB) :=
  if p.ID = 0 then db.createPost now p
  else
    let row : Post := { p with UpdatedAt := now }
    if fitsColumn p.UserID then
      .ok (row, some { db with posts := db.posts.map (fun q => if q.ID = p.ID then row else q) })
    else .ok (row, none)

/-- `db.Delete(&post)`: `DELETE FROM posts WHERE id = ?`, which removes the
row of the post and nothing else.  gorm refuses a delete without conditions,
which is what a zero primary key gives.  The table `comments` is migrated with
a plain foreign key on `post_id`, without `ON DELETE CASCADE`, although
`Comment.Post` carries the tag `OnDelete:CASCADE`.  So a connection that
enforces foreign keys refuses the delete while a comment refers to the post,
and no connection deletes comments. -/
def DB.deletePost (db : DB) (p : Post) : Except DBError DB :=
  if p.ID = 0 then .error .ErrMissingWhereClause
  else if db.foreignKeys && db.comments.any (fun c => c.PostID == p.ID) then
    .error (.constraintFailed "FOREIGN KEY constraint failed")
  else
    .ok { db with posts := db.posts.filter (fun q => q.ID != p.ID) }

/-- The author `Preload("User")` attaches: the user with that id, or the zero
value. -/
def DB.preloadUser (db : DB) (userID : Nat) : User :=
  match db.users.find? (fun u => u.ID == userID) with
  | some u => u
  | none => User.zero

/-- `ORDER BY created_at desc`; rows of equal time keep their table order. -/
def orderCreatedDesc (ps : List Post) : List Post :=
  ps.insertionSort (fun a b => b.CreatedAt ≤ a.CreatedAt)

/-- `ORDER BY created_at asc`. -/
def orderCreatedAsc (cs : List Comment) : List Comment :=
  cs.insertionSort (fun a b => a.CreatedAt ≤ b.CreatedAt)

/-- `db.Preload("User").Order("created_at desc")`, then `Limit` and `Offset`
when the handler set them, then `Find(&posts)`. -/
def DB.findPosts (db : DB) (limit : Option Nat) (offset : Option Nat) : Except DBError (List Post) :=
  let sorted := orderCreatedDesc db.posts
  let skipped := match offset with
    | some o => sorted.drop o
    | none => sorted
  let kept := match limit with
    | some l => skipped.take l
    | none => skipped
  .ok (kept.map (fun p => { p with User := db.preloadUser p.UserID }))

/-- `db.Preload("User").Where("post_id = ?", id).Order("created_at asc").Find(&comments)`. -/
def DB.findComments (db : DB) (postID : Nat) : Except DBError (List Comment) :=
  .ok ((orderCreatedAsc (db.comments.filter (fun c => c.PostID == postID))).map
    (fun c => { c with User := db.preloadUser c.UserID }))

/-! ## auth.go, with golang-jwt and bcrypt -/

/-- `jwt.RegisteredClaims`, the fields the parser looks at or `generateToken`
sets. -/
structure RegisteredClaims where
  Issuer : String
  ExpiresAt : Option Time
  NotBefore : Option Time
  IssuedAt : Option Time
deriving DecidableEq, Repr

/-- `jwtClaims`: `UserID` is a `uint`. -/
structure jwtClaims where
  UserID : Nat
  Username : String
  Registered : RegisteredClaims
deriving DecidableEq, Repr

/-- A compact JWT once its three segments are decoded: the `alg` entry of the
header (absent, or a name), the claims and the signature. -/
structure Token where
  alg : Option String
  claims : jwtClaims
  signature : String
deriving DecidableEq, Repr

/-- The families of signing methods golang-jwt registers. -/
inductive SigningMethod where
  | HMAC (name : String)
  | RSA (name : String)
  | RSAPSS (name : String)
  | ECDSA (name : String)
  | Ed25519
  | None
deriving DecidableEq, Repr

/-- `jwt.GetSigningMethod(alg)`. -/
def GetSigningMethod (alg : String) : Option SigningMethod :=
  if alg ∈ ["HS256", "HS384", "HS512"] then some (.HMAC alg)
  else if alg ∈ ["RS256", "RS384", "RS512"] then some (.RSA alg)
  else if alg ∈ ["PS256", "PS384", "PS512"] then some (.RSAPSS alg)
  else if alg ∈ ["ES256", "ES384", "ES512"] then some (.ECDSA alg)
  else if alg = "EdDSA" then some .Ed25519
  else if alg = "none" then some .None
  else none

/-- The primitives taken from libraries.
* `bcryptGenerate`: `bcrypt.GenerateFromPassword` at the default cost, with
  the salt the library draws; `none` is its error.
* `bcryptCompare hashed plain`: whether `bcrypt.CompareHashAndPassword`
  returns nil.
* `hmac name key alg claims`: the HMAC of method `name` under `key` over the
  signing string, which is the encoded header and claims.
* `encode`, `decode`: the compact serialisation of a token and its parser. -/
structure Lib where
  bcryptGenerate : String → Option String
  bcryptCompare : String → String → Bool
  hmac : String → String → Option String → jwtClaims → String
  encode : Token → String
  decode : String → Option Token

/-- `jwtSecret()`; the argument is the value of `JWT_SECRET`. -/
def jwtSecret (env : String) : String :=
  if env = "" then "dev_secret_change_me" else env

/-- `hashPassword`. -/
def hashPassword (lib : Lib) (password : String) : Except String String :=
  match lib.bcryptGenerate password with
  | some hashed => .ok hashed
  | none => .error "bcrypt: cannot hash the password"

/-- `checkPassword`; `true` stands for the nil error. -/
def checkPassword (lib : Lib) (hashed plain : String) : Bool :=
  lib.bcryptCompare hashed plain

/-- `jwt.NewNumericDate`: the time truncated to `jwt.TimePrecision`, a
second. -/
def NewNumericDate (t : Time) : Time := truncate t second

/-- The claims `generateToken` builds; `now1` and `now2` are its two readings
of `time.Now()`, in the order of the struct literal. -/
def tokenClaims (now1 now2 : Time) (user : User) : jwtClaims :=
  { UserID := user.ID
    Username := user.Username
    Registered :=
      { ExpiresAt := some (NewNumericDate (now1 + 24 * hour))
        IssuedAt := some (NewNumericDate now2)
        Issuer := "go-homework4"
        NotBefore := none } }

/-- `jwt.NewWithClaims(method, claims)` followed by `SignedString(key)`, before
serialisation. -/
def signedToken (lib : Lib) (alg key : String) (claims : jwtClaims) : Token :=
  { alg := some alg, claims := claims, signature := lib.hmac alg key (some alg) claims }

/-- `generateToken`. -/
def generateToken (lib : Lib) (env : String) (now1 now2 : Time) (user : User) :
    Except String String :=
  .ok (lib.encode (signedToken lib "HS256" (jwtSecret env) (tokenClaims now1 now2 user)))

/-- The key function `parseToken` hands to the parser: the secret for a
method of type `*jwt.SigningMethodHMAC`, an error for any other. -/
def keyFunc (env : String) (method : SigningMethod) : Except String String :=
  match method with
  | .HMAC _ => .ok (jwtSecret env)
  | _ => .error "unexpected signing method"

/-- `SigningMethodHMAC.Verify`. -/
def verifyHMAC (lib : Lib) (name key : String) (tok : Token) : Bool :=
  tok.signature == lib.hmac name key tok.alg tok.claims

/-- The default validator of golang-jwt v5 at time `now`: an `exp` claim must
lie after `now`, an `nbf` claim must not; `iat` is not checked. -/
def validateClaims (now : Time) (c : jwtClaims) : Except String Unit :=
  match c.Registered.ExpiresAt with
  | some exp =>
    if now < exp then
      (match c.Registered.NotBefore with
       | some nbf => if now < nbf then .error "token is not valid yet" else .ok ()
       | none => .ok ())
    else .error "token is expired"
  | none =>
    match c.Registered.NotBefore with
    | some nbf => if now < nbf then .error "token is not valid yet" else .ok ()
    | none => .ok ()

/-- What `jwt.ParseWithClaims` returns without error. -/
structure ParsedToken where
  Claims : jwtClaims
  Valid : Bool
deriving DecidableEq, Repr

/-- `jwt.ParseWithClaims(tokenString, claims, keyFunc)` at time `now`,
with no parser option. -/
def ParseWithClaims (lib : Lib) (env : String) (now : Time) (tokenString : String) :
    Except String ParsedToken :=
  match lib.decode tokenString with
  | none => .error "token is malformed"
  | some tok =>
    match tok.alg with
    | none => .error "token is unverifiable: signing method (alg) is unspecified"
    | some alg =>
      match GetSigningMethod alg with
      | none => .error "token is unverifiable: signing method (alg) is unavailable"
      | some method =>
        match keyFunc env method with
        | .error e => .error ("token is unverifiable: " ++ e)
        | .ok key =>
          match method with
          | .HMAC name =>
            if verifyHMAC lib name key tok then
              match validateClaims now tok.claims with
              | .ok _ => .ok { Claims := tok.claims, Valid := true }
              | .error e => .error e
            else .error "token signature is invalid"
          | _ => .error "token signature is invalid: key is of invalid type"

/-- `parseToken`. -/
def parseToken (lib : Lib) (env : String) (now : Time) (tokenString : String) :
    Except String jwtClaims :=
  match ParseWithClaims lib env now tokenString with
  | .error e => .error e
  | .ok parsed => if !parsed.Valid then .error "invalid token" else .ok parsed.Claims

/-! ## gin: request context, JSON binding, responses -/

/-- A JSON value, as far as decoding into a string field tells values apart:
a string, `null`, or a value of another kind (number, bool, array, object),
with the name the decoder gives that kind in its error. -/
inductive JSONValue where
  | string (s : String)
  | null
  | other (kind : String)
deriving DecidableEq, Repr

/-- A request body as `encoding/json` sees it: not decodable at all (a syntax
error, or a value that is neither an object nor `null`), with the decoder's
error text, or an object, given by its members in the order of the document.
The body `null` decodes like the empty object. -/
inductive Body where
  | malformed (err : String)
  | object (members : List (String × JSONValue))
deriving DecidableEq, Repr

/-- Case folding of one character of an object key: the letters A to Z, the
Kelvin sign and the long s fold to ASCII lower case. -/
def foldChar (c : Char) : Char :=
  if c.toNat = 8490 then 'k' else if c.toNat = 383 then 's' else lowerChar c

/-- Case folding of an object key.  The decoder gives a member to the struct
field whose name equals the key up to this folding; the names of the request
structs are lower case. -/
def foldKey (key : String) : String := String.mk (key.data.map foldChar)

/-- The value decoded into a string field tagged `json:"key"`: members are
taken in document order, a member whose key matches and whose value is a
string overwrites the field, one whose value is `null` leaves it; the field
starts as the zero value. -/
def member (members : List (String × JSONValue)) (key : String) : String :=
  members.foldl
    (fun acc m =>
      if foldKey m.1 == key then
        match m.2 with
        | .string v => v
        | _ => acc
      else acc) ""

/-- The decoder's error for the first member, in document order, that matches
one of the fields of the struct and holds a value that is neither a string nor
`null`. -/
def typeMismatch (structName : String) (keys : List String)
    (members : List (String × JSONValue)) : Option String :=
  match members with
  | [] => none
  | (k, .other kind) :: rest =>
    if keys.contains (foldKey k) then
      some ("json: cannot unmarshal " ++ kind ++ " into Go struct field " ++ structName ++
        "." ++ foldKey k ++ " of type string")
    else typeMismatch structName keys rest
  | _ :: rest => typeMismatch structName keys rest

/-- The single quote character, as a string. -/
def quote : String := String.singleton (Char.ofNat 39)

/-- The message of the validator for a field that fails `binding:"required"`. -/
def requiredError (structName field : String) : String :=
  "Key: " ++ quote ++ structName ++ "." ++ field ++ quote ++
    " Error:Field validation for " ++ quote ++ field ++ quote ++
    " failed on the " ++ quote ++ "required" ++ quote ++ " tag"

/-- The `binding:"required"` check over the fields of a request struct, in
order: a field fails when it holds the zero value; the messages of all failing
fields are joined by newlines. -/
def validateRequired (structName : String) (fields : List (String × String)) :
    Except String Unit :=
  match fields.filter (fun f => f.2 == "") with
  | [] => .ok ()
  | bad => .error ("\n".intercalate (bad.map (fun f => requiredError structName f.1)))

/-- Request struct `registerRequest`. -/
structure registerRequest where
  Username : String
  Password : String
  Email : String
deriving DecidableEq, Repr

/-- Request struct `loginRequest`. -/
structure loginRequest where
  Username : String
  Password : String
deriving DecidableEq, Repr

/-- Request struct `postRequest`. -/
structure postRequest where
  Title : String
  Content : String
deriving DecidableEq, Repr

/-- Request struct `commentRequest`. -/
structure commentRequest where
  Content : String
deriving DecidableEq, Repr

/-- `c.ShouldBindJSON(&req)` for a `registerRequest`: the JSON decoder, then
the `binding:"required"` validation. -/
def bindRegister (b : Body) : Except String registerRequest :=
  match b with
  | .malformed e => .error e
  | .object ms =>
    match typeMismatch "registerRequest" ["username", "password", "email"] ms with
    | some e => .error e
    | none =>
      let req : registerRequest :=
        ⟨member ms "username", member ms "password", member ms "email"⟩
      match validateRequired "registerRequest"
          [("Username", req.Username), ("Password", req.Password), ("Email", req.Email)] with
      | .ok _ => .ok req
      | .error e => .error e

/-- `c.ShouldBindJSON(&req)` for a `loginRequest`. -/
def bindLogin (b : Body) : Except String loginRequest :=
  match b with
  | .malformed e => .error e
  | .object ms =>
    match typeMismatch "loginRequest" ["username", "password"] ms with
    | some e => .error e
    | none =>
      let req : loginRequest := ⟨member ms "username", member ms "password"⟩
      match validateRequired "loginRequest"
          [("Username", req.Username), ("Password", req.Password)] with
      | .ok _ => .ok req
      | .error e => .error e

/-- `c.ShouldBindJSON(&req)` for a `postRequest`. -/
def bindPost (b : Body) : Except String postRequest :=
  match b with
  | .malformed e => .error e
  | .object ms =>
    match typeMismatch "postRequest" ["title", "content"] ms with
    | some e => .error e
    | none =>
      let req : postRequest := ⟨member ms "title", member ms "content"⟩
      match validateRequired "postRequest"
          [("Title", req.Title), ("Content", req.Content)] with
      | .ok _ => .ok req
      | .error e => .error e

/-- `c.ShouldBindJSON(&req)` for a `commentRequest`. -/
def bindComment (b : Body) : Except String commentRequest :=
  match b with
  | .malformed e => .error e
  | .object ms =>
    match typeMismatch "commentRequest" ["content"] ms with
    | some e => .error e
    | none =>
      let req : commentRequest := ⟨member ms "content"⟩
      match validateRequired "commentRequest" [("Content", req.Content)] with
      | .ok _ => .ok req
      | .error e => .error e

/-- A value stored under a key of the request context. -/
inductive Value where
  | uint (n : Nat)
  | string (s : String)
deriving DecidableEq, Repr

/-- The parts of `*gin.Context` the handlers read: the `Authorization` header
(empty when absent), the path parameter `id`, the query parameters `limit`
and `offset` (empty when absent), the body, and the key/value bag. -/
structure Context where
  Authorization : String
  id : String
  limit : String
  offset : String
  body : Body
  Keys : List (String × Value)
deriving DecidableEq, Repr

/-- `c.Set(key, value)`. -/
def Context.Set (c : Context) (key : String) (v : Value) : Context :=
  { c with Keys := (key, v) :: c.Keys.filter (fun kv => kv.1 != key) }

/-- `c.Get(key)`. -/
def Context.Get (c : Context) (key : String) : Option Value :=
  c.Keys.lookup key

/-- `c.MustGet(key).(uint)`: `none` stands for the panic of `MustGet` on a
missing key and of the type assertion on a value that is no `uint`. -/
def Context.MustGetUint (c : Context) (key : String) : Option Nat :=
  match c.Get key with
  | some (.uint n) => some n
  | _ => none

/-- JSON payloads of the responses. -/
inductive Payload where
  | error (message : String)
  | message (message : String)
  | login (token : String) (id : Nat) (username email : String)
  | post (p : Post)
  | posts (ps : List Post)
  | comment (c : Comment)
  | comments (cs : List Comment)
deriving DecidableEq, Repr

/-- What running a handler chain on a request gives: the response written and
the store afterwards, or a panic.  `respondUnreadable` is a response written
after an insert whose `user_id` does not fit its column (`fitsColumn`): the
store then holds a row that reads back into no Go value and is not a `DB`
value. -/
inductive Outcome where
  | respond (status : Nat) (payload : Payload) (db : DB)
  | respondUnreadable (status : Nat) (payload : Payload)
  | panic
deriving DecidableEq, Repr

/-- `respondError`. -/
def respondError (db : DB) (status : Nat) (message : String) : Outcome :=
  .respond status (.error message) db

/-- `respondJSON`. -/
def respondJSON (db : DB) (status : Nat) (payload : Payload) : Outcome :=
  .respond status payload db

/-- `respondJSON` after a write: on the store the write left, when there is
one. -/
def respondWritten (db : Option DB) (status : Nat) (payload : Payload) : Outcome :=
  match db with
  | some db1 => respondJSON db1 status payload
  | none => .respondUnreadable status payload

/-- The status of an outcome, when there is a response. -/
def Outcome.status : Outcome → Option Nat
  | .respond st _ _ => some st
  | .respondUnreadable st _ => some st
  | .panic => none

/-- The store after an outcome, when it is a `DB` value. -/
def Outcome.store : Outcome → Option DB
  | .respond _ _ db => some db
  | .respondUnreadable _ _ => none
  | .panic => none

/-- `parseUintParam(c, "id")`; `uint` is 64 bit wide, so the conversion
keeps the parsed value. -/
def parseUintParam (c : Context) : Option Nat :=
  match ParseUint c.id with
  | some parsed => some (parsed % 2 ^ 64)
  | none => none

/-! ## handlers.go -/

/-- `registerHandler`; `now` is the time gorm stamps the row with. -/
def registerHandler (lib : Lib) (now : Time) (c : Context) (db : DB) : Outcome :=
  match bindRegister c.body with
  | .error e => respondError db 400 e
  | .ok req =>
    match db.firstUser (fun u => u.Username == req.Username || u.Email == req.Email) with
    | .ok _ => respondError db 409 "username or email already exists"
    | .error .ErrRecordNotFound =>
      (match hashPassword lib req.Password with
       | .error _ => respondError db 500 "failed to hash password"
       | .ok hashed =>
         match db.createUser now ⟨0, req.Username, hashed, req.Email, 0, 0⟩ with
         | .error _ => respondError db 500 "failed to create user"
         | .ok (_, db1) => respondJSON db1 201 (.message "user registered"))
    | .error _ => respondError db 500 "database error"

/-- `loginHandler`; `now1` and `now2` are the clock readings of
`generateToken`. -/
def loginHandler (lib : Lib) (env : String) (now1 now2 : Time) (c : Context) (db : DB) :
    Outcome :=
  match bindLogin c.body with
  | .error e => respondError db 400 e
  | .ok req =>
    match db.firstUser (fun u => u.Username == req.Username) with
    | .error .ErrRecordNotFound => respondError db 401 "invalid username or password"
    | .error _ => respondError db 500 "database error"
    | .ok user =>
      if !checkPassword lib user.Password req.Password then
        respondError db 401 "invalid username or password"
      else
        match generateToken lib env now1 now2 user with
        | .error _ => respondError db 500 "failed to generate token"
        | .ok token => respondJSON db 200 (.login token user.ID user.Username user.Email)

/-- `createPostHandler`. -/
def createPostHandler (now : Time) (c : Context) (db : DB) : Outcome :=
  match bindPost c.body with
  | .error e => respondError db 400 e
  | .ok req =>
    match c.MustGetUint "userID" with
    | none => .panic
    | some userID =>
      match db.createPost now ⟨0, req.Title, req.Content, userID, User.zero, 0, 0⟩ with
      | .error _ => respondError db 500 "failed to create post"
      | .ok (post, db1) => respondWritten db1 201 (.post post)

/-- `listPostsHandler`. -/
def listPostsHandler (c : Context) (db : DB) : Outcome :=
  let limitStep : Except Unit (Option Nat) :=
    if c.limit != "" then
      match Atoi c.limit with
      | none => .error ()
      | some parsed => if parsed ≤ 0 then .error () else .ok (some parsed.toNat)
    else .ok none
  match limitStep with
  | .error _ => respondError db 400 "invalid limit"
  | .ok limit =>
    let offsetStep : Except Unit (Option Nat) :=
      if c.offset != "" then
        match Atoi c.offset with
        | none => .error ()
        | some parsed => if parsed < 0 then .error () else .ok (some parsed.toNat)
      else .ok none
    match offsetStep with
    | .error _ => respondError db 400 "invalid offset"
    | .ok offset =>
      match db.findPosts limit offset with
      | .error _ => respondError db 500 "failed to fetch posts"
      | .ok posts => respondJSON db 200 (.posts posts)

/-- `getPostHandler`. -/
def getPostHandler (c : Context) (db : DB) : Outcome :=
  match parseUintParam c with
  | none => respondError db 400 "invalid post id"
  | some postID =>
    match db.firstPost postID with
    | .error .ErrRecordNotFound => respondError db 404 "post not found"
    | .error _ => respondError db 500 "failed to fetch post"
    | .ok post => respondJSON db 200 (.post { post with User := db.preloadUser post.UserID })

/-- `updatePostHandler`. -/
def updatePostHandler (now : Time) (c : Context) (db : DB) : Outcome :=
  match parseUintParam c with
  | none => respondError db 400 "invalid post id"
  | some postID =>
    match db.firstPost postID with
    | .error .ErrRecordNotFound => respondError db 404 "post not found"
    | .error _ => respondError db 500 "failed to fetch post"
    | .ok post =>
      match c.MustGetUint "userID" with
      | none => .panic
      | some userID =>
        if post.UserID != userID then respondError db 403 "not the post author"
        else
          match bindPost c.body with
          | .error e => respondError db 400 e
          | .ok req =>
            match db.savePost now { post with Title := req.Title, Content := req.Content } with
            | .error _ => respondError db 500 "failed to update post"
            | .ok (saved, db1) => respondWritten db1 200 (.post saved)

/-- `deletePostHandler`. -/
def deletePostHandler (c : Context) (db : DB) : Outcome :=
  match parseUintParam c with
  | none => respondError db 400 "invalid post id"
  | some postID =>
    match db.firstPost postID with
    | .error .ErrRecordNotFound => respondError db 404 "post not found"
    | .error _ => respondError db 500 "failed to fetch post"
    | .ok post =>
      match c.MustGetUint "userID" with
      | none => .panic
      | some userID =>
        if post.UserID != userID then respondError db 403 "not the post author"
        else
          match db.deletePost post with
          | .error _ => respondError db 500 "failed to delete post"
          | .ok db1 => respondJSON db1 200 (.message "post deleted")

/-- `createCommentHandler`. -/
def createCommentHandler (now : Time) (c : Context) (db : DB) : Outcome :=
  match parseUintParam c with
  | none => respondError db 400 "invalid post id"
  | some postID =>
    match db.firstPost postID with
    | .error .ErrRecordNotFound => respondError db 404 "post not found"
    | .error _ => respondError db 500 "failed to fetch post"
    | .ok post =>
      match bindComment c.body with
      | .error e => respondError db 400 e
      | .ok req =>
        match c.MustGetUint "userID" with
        | none => .panic
        | some userID =>
          match db.createComment now ⟨0, req.Content, userID, User.zero, post.ID, 0⟩ with
          | .error _ => respondError db 500 "failed to create comment"
          | .ok (comment, db1) => respondWritten db1 201 (.comment comment)

/-- `listCommentsHandler`. -/
def listCommentsHandler (c : Context) (db : DB) : Outcome :=
  match parseUintParam c with
  | none => respondError db 400 "invalid post id"
  | some postID =>
    match db.firstPost postID with
    | .error .ErrRecordNotFound => respondError db 404 "post not found"
    | .error _ => respondError db 500 "failed to fetch post"
    | .ok _ =>
      match db.findComments postID with
      | .error _ => respondError db 500 "failed to fetch comments"
      | .ok comments => respondJSON db 200 (.comments comments)

/-! ## middleware.go, and the protected routes of main.go -/

/-- `authMiddleware()`; `next` is the rest of the handler chain, run by
`c.Next()`, and `now` the clock reading of the token validator. -/
def authMiddleware (lib : Lib) (env : String) (now : Time)
    (next : Context → DB → Outcome) (c : Context) (db : DB) : Outcome :=
  let header := c.Authorization
  if header = "" then respondError db 401 "missing authorization header"
  else
    match SplitN2 header with
    | [scheme, token] =>
      if ToLower scheme != "bearer" then respondError db 401 "invalid authorization header"
      else
        (match parseToken lib env now token with
         | .error _ => respondError db 401 "invalid or expired token"
         | .ok claims =>
           next ((c.Set "userID" (.uint claims.UserID)).Set "username"
             (.string claims.Username)) db)
    | _ => respondError db 401 "invalid authorization header"

/-- The handlers `main` registers behind `authMiddleware()`: `POST /posts`,
`PUT /posts/:id`, `DELETE /posts/:id`, `POST /posts/:id/comments`.  The
`gin.Logger()` and `gin.Recovery()` entries of the chain leave the context and
the response of a handler that does not panic as they are. -/
def protectedHandlers (now : Time) : List (Context → DB → Outcome) :=
  [createPostHandler now, updatePostHandler now, deletePostHandler, createCommentHandler now]

/-- A protected route: the handler behind `authMiddleware()`; `nowAuth` is the
clock reading of the middleware. -/
def protectedRoute (lib : Lib) (env : String) (nowAuth : Time)
    (handler : Context → DB → Outcome) (c : Context) (db : DB) : Outcome :=
  authMiddleware lib env nowAuth handler c db



/-! ## Predicates of the statements, and the stores and requests of the concrete runs -/

/-- A store with one post of user 7. -/
def storeC1 : DB :=
  { initDB with posts := [⟨1, "t", "c", 7, User.zero, 5, 5⟩], postSeq := 1 }

/-- A request of user 8 on post 1, with a valid body. -/
def requestC1 : Context :=
  ⟨"", "1", "", "", .object [("title", .string "x"), ("content", .string "y")],
    [("userID", .uint 8)]⟩

/-- An authenticated request on post 1 whose body is not JSON. -/
def requestC3 : Context :=
  ⟨"", "1", "", "", .malformed "unexpected end of JSON input", [("userID", .uint 8)]⟩

/-- Three posts, stored oldest first, and their author. -/
def storeC5 : DB :=
  { initDB with
    users := [⟨7, "ann", "h", "ann@x.com", 1, 1⟩]
    posts := [⟨1, "a", "x", 7, User.zero, 10, 10⟩, ⟨2, "b", "y", 7, User.zero, 20, 20⟩,
      ⟨3, "c", "z", 7, User.zero, 30, 30⟩]
    userSeq := 7
    postSeq := 3 }

/-- The request `GET /posts?limit=2&offset=1`. -/
def requestC5 : Context := ⟨"", "", "2", "1", .malformed "EOF", []⟩

/-- Usernames are unique across users, and so are emails. -/
def usersUnique (db : DB) : Prop :=
  (db.users.map User.Username).Nodup ∧ (db.users.map User.Email).Nodup

/-- The row `registerHandler` inserts for a request. -/
def registeredRow (db : DB) (now : Time) (req : registerRequest) (hashed : String) : User :=
  ⟨nextID User.ID db.users db.userSeq, req.Username, hashed, req.Email, now, now⟩

/-- A key without its trailing NUL characters.  HMAC pads a key shorter than
the block of its hash with zero bytes, so such a key and the key followed by
NUL characters give the same signatures. -/
def paddedKey (key : String) : String :=
  String.mk (key.data.reverse.dropWhile (fun ch => ch.toNat == 0)).reverse

/-- A stand-in for HMAC: the padded key, then the method and the subject. -/
def toyHmac (name key : String) (_alg : Option String) (claims : jwtClaims) : String :=
  paddedKey key ++ ("/" ++ name ++ "/" ++ claims.Username)

/-- A stand-in for the compact serialisation. -/
def toyEncode (t : Token) : String :=
  (match t.alg with
   | some a => a
   | none => "") ++ "." ++ t.claims.Username ++ "." ++ t.signature

/-- The user row of the concrete runs. -/
def annRow : User := ⟨1, "ann", "$2a$10$pw", "ann@x.com", 5, 5⟩

/-- Nine tenths of a second. -/
def t09 : Time := 900000000

/-- The tokens the stand-in parser knows: for `annRow`, issued at `t09`, signed
HS256, HS384 and HS512 under the development secret, HS256 under another key,
and one that names RS256. -/
def toyTokens : List Token :=
  [ ⟨some "HS256", tokenClaims t09 t09 annRow,
      toyHmac "HS256" "dev_secret_change_me" (some "HS256") (tokenClaims t09 t09 annRow)⟩,
    ⟨some "HS384", tokenClaims t09 t09 annRow,
      toyHmac "HS384" "dev_secret_change_me" (some "HS384") (tokenClaims t09 t09 annRow)⟩,
    ⟨some "HS512", tokenClaims t09 t09 annRow,
      toyHmac "HS512" "dev_secret_change_me" (some "HS512") (tokenClaims t09 t09 annRow)⟩,
    ⟨some "HS256", tokenClaims t09 t09 annRow,
      toyHmac "HS256" "another_secret" (some "HS256") (tokenClaims t09 t09 annRow)⟩,
    ⟨some "RS256", tokenClaims t09 t09 annRow, "sig"⟩ ]

/-- The stand-in parser: the known token with that serialisation. -/
def toyDecode (s : String) : Option Token :=
  toyTokens.find? (fun t => toyEncode t == s)

/-- The instance: bcrypt refuses passwords of more than 72 bytes. -/
def toyLib : Lib :=
  { bcryptGenerate := fun p => if p.utf8ByteSize ≤ 72 then some ("$2a$10$" ++ p) else none
    bcryptCompare := fun h p => h == "$2a$10$" ++ p
    hmac := toyHmac
    encode := toyEncode
    decode := toyDecode }

/-- The request `POST /register` of ann. -/
def requestRegister : Context :=
  ⟨"", "", "", "", .object [("username", .string "ann"), ("password", .string "pw"),
    ("email", .string "ann@x.com")], []⟩

/-- The store after ann registered at time 5. -/
def storeAnn : DB := { initDB with users := [annRow], userSeq := 1 }

/-- A password of 73 bytes. -/
def longPassword : String := String.mk (List.replicate 73 'a')

/-- The request `POST /register` of bob, with the long password. -/
def requestRegisterLong : Context :=
  ⟨"", "", "", "",
    .object [("username", .string "bob"), ("password", .string longPassword),
      ("email", .string "bob@x.com")], []⟩

/-- The token `generateToken` returns for a user, at the two clock readings. -/
def issuedToken (lib : Lib) (env : String) (now1 now2 : Time) (user : User) : String :=
  lib.encode (signedToken lib "HS256" (jwtSecret env) (tokenClaims now1 now2 user))

/-- The request `POST /login` of ann. -/
def requestLogin : Context :=
  ⟨"", "", "", "", .object [("username", .string "ann"), ("password", .string "pw")], []⟩

/-- The request `POST /posts` of ann, authenticated. -/
def requestNewPost : Context :=
  ⟨"", "", "", "", .object [("title", .string "t"), ("content", .string "c")],
    [("userID", .uint 1)]⟩

/-- A request of ann on post 1, authenticated, with the body of a comment. -/
def requestPost1 : Context :=
  ⟨"", "1", "", "", .object [("content", .string "hi")], [("userID", .uint 1)]⟩

/-- The store after ann wrote post 1. -/
def storePost : DB :=
  { storeAnn with posts := [⟨1, "t", "c", 1, User.zero, 10, 10⟩], postSeq := 1 }

/-- The store after ann commented on post 1. -/
def storeComment : DB :=
  { storePost with comments := [⟨1, "hi", 1, User.zero, 1, 20⟩], commentSeq := 1 }

/-- An authenticated request `POST /posts` with the token of ann. -/
def requestC10 : Context :=
  ⟨"Bearer HS256.ann.dev_secret_change_me/HS256/ann", "", "", "",
    .object [("title", .string "t"), ("content", .string "c")], []⟩

/-! ## Lemmas on the store -/

theorem firstByKey_eq_none {α : Type} (key : α → Nat) (l : List α) :
    firstByKey key l = none ↔ l = [] := by
  cases l with
  | nil => simp [firstByKey]
  | cons a as =>
    simp only [firstByKey]
    cases h : firstByKey key as with
    | none => simp
    | some b => by_cases hb : key b < key a <;> simp [hb]

theorem firstByKey_mem {α : Type} (key : α → Nat) (l : List α) (a : α)
    (h : firstByKey key l = some a) : a ∈ l := by
  induction l generalizing a with
  | nil => simp [firstByKey] at h
  | cons x xs ih =>
    simp only [firstByKey] at h
    cases hx : firstByKey key xs with
    | none =>
      rw [hx] at h
      simp at h
      simp [h]
    | some b =>
      rw [hx] at h
      by_cases hb : key b < key x
      · simp [hb] at h
        subst h
        exact List.mem_cons_of_mem _ (ih b hx)
      · simp [hb] at h
        simp [h]

theorem firstByKey_singleton {α : Type} (key : α → Nat) (a : α) :
    firstByKey key [a] = some a := by
  simp [firstByKey]

theorem filter_key_eq_singleton {α : Type} (key : α → Nat) (l : List α) (a : α)
    (hnd : (l.map key).Nodup) (ha : a ∈ l) :
    l.filter (fun b => key b == key a) = [a] := by
  induction l with
  | nil => simp at ha
  | cons x xs ih =>
    simp only [List.map_cons, List.nodup_cons, List.mem_map, not_exists, not_and] at hnd
    rcases List.mem_cons.mp ha with hax | hax
    · subst hax
      have hrest : xs.filter (fun b => key b == key a) = [] := by
        rw [List.filter_eq_nil_iff]
        intro b hb
        have := hnd.1 b hb
        simpa using this
      simp [List.filter_cons, hrest]
    · have hne : key x ≠ key a := fun h => hnd.1 a hax h.symm
      simp [List.filter_cons, hne, ih hnd.2 hax]

theorem firstPost_of_mem (db : DB) (p : Post) (hkeys : (db.posts.map Post.ID).Nodup)
    (hp : p ∈ db.posts) : db.firstPost p.ID = .ok p := by
  unfold DB.firstPost
  rw [filter_key_eq_singleton Post.ID db.posts p hkeys hp, firstByKey_singleton]

theorem firstPost_ok_mem (db : DB) (id : Nat) (p : Post) (h : db.firstPost id = .ok p) :
    p ∈ db.posts ∧ p.ID = id := by
  unfold DB.firstPost at h
  cases hf : firstByKey Post.ID (db.posts.filter (fun p => p.ID == id)) with
  | none => rw [hf] at h; simp at h
  | some q =>
    rw [hf] at h
    simp only [Except.ok.injEq] at h
    subst h
    have := firstByKey_mem _ _ _ hf
    simpa using this

theorem firstPost_not_found (db : DB) (id : Nat) (h : ∀ p ∈ db.posts, p.ID ≠ id) :
    db.firstPost id = .error .ErrRecordNotFound := by
  unfold DB.firstPost
  have : db.posts.filter (fun p => p.ID == id) = [] := by
    rw [List.filter_eq_nil_iff]
    intro p hp
    simpa using h p hp
  rw [this]
  rfl

theorem ParseUint_lt (s : String) (n : Nat) (h : ParseUint s = some n) : n < 2 ^ 64 := by
  unfold ParseUint at h
  split at h
  · simp at h
  · split at h
    · split at h
      · simp at h; omega
      · simp at h
    · simp at h

theorem parseUintParam_eq (c : Context) (n : Nat) (h : ParseUint c.id = some n) :
    parseUintParam c = some n := by
  unfold parseUintParam
  rw [h]
  have hlt := ParseUint_lt _ _ h
  simp only [Option.some.injEq]
  exact Nat.mod_eq_of_lt hlt

theorem digitVal_digitChar (k : Nat) (hk : k < 10) : digitVal (Nat.digitChar k) = some k := by
  interval_cases k <;> decide

theorem parseDigits_toDigitsCore (fuel : Nat) :
    ∀ (n : Nat) (ds : List Char), n < fuel →
      parseDigits (Nat.toDigitsCore 10 fuel n ds) 0 = parseDigits ds n := by
  induction fuel with
  | zero => intro n ds h; omega
  | succ fuel ih =>
    intro n ds h
    have hd : digitVal (Nat.digitChar (n % 10)) = some (n % 10) :=
      digitVal_digitChar _ (Nat.mod_lt _ (by decide))
    unfold Nat.toDigitsCore
    by_cases h0 : n / 10 = 0
    · simp only [h0, if_true]
      have hn : n % 10 = n := Nat.mod_eq_of_lt (by omega)
      simp only [parseDigits, hd]
      rw [hn]
      simp
    · simp only [h0, if_false]
      rw [ih (n / 10) _ (by omega)]
      simp only [parseDigits, hd]
      congr 1
      omega

theorem toDigitsCore_ne_nil (fuel n : Nat) (ds : List Char) (h : ds ≠ []) :
    Nat.toDigitsCore 10 fuel n ds ≠ [] := by
  induction fuel generalizing n ds with
  | zero => simpa [Nat.toDigitsCore] using h
  | succ fuel ih =>
    unfold Nat.toDigitsCore
    by_cases h0 : n / 10 = 0
    · simp [h0]
    · simp only [h0, if_false]
      exact ih _ _ (by simp)

theorem ParseUint_decimal (n : Nat) (h : n < 2 ^ 64) : ParseUint (toString n) = some n := by
  have hdata : (toString n).data = Nat.toDigitsCore 10 (n + 1) n [] := rfl
  have hparse : parseDigits (Nat.toDigitsCore 10 (n + 1) n []) 0 = some n := by
    rw [parseDigits_toDigitsCore (n + 1) n [] (by omega)]
    rfl
  have hne : Nat.toDigitsCore 10 (n + 1) n [] ≠ [] := by
    unfold Nat.toDigitsCore
    by_cases h0 : n / 10 = 0
    · simp [h0]
    · simp only [h0, if_false]
      exact toDigitsCore_ne_nil _ _ _ (by simp)
  unfold ParseUint
  rw [hdata]
  split
  · rename_i heq
    exact absurd heq hne
  · simp only [hparse]
    rw [if_pos h]

/-! ## C1: only the owner updates or deletes a post -/

/-- C1: in a store whose posts have distinct primary keys, for a post `p` of the
store and a request whose path parameter parses to the id of `p` (as its
decimal rendering does, `ParseUint_decimal`) and whose authenticated user id
`u` differs from `p.UserID`, `updatePostHandler` and
`deletePostHandler` respond 403, whatever the body is, and return the store
as it was, so that `p` is still in it with its title and content. -/
theorem C1_not_owner_forbidden (now : Time) (c : Context) (db : DB) (p : Post) (u : Nat)
    (hkeys : (db.posts.map Post.ID).Nodup) (hp : p ∈ db.posts)
    (hid : ParseUint c.id = some p.ID)
    (hu : c.MustGetUint "userID" = some u) (hne : u ≠ p.UserID) :
    updatePostHandler now c db = .respond 403 (.error "not the post author") db ∧
    deletePostHandler c db = .respond 403 (.error "not the post author") db ∧
    (∀ db1, (updatePostHandler now c db).store = some db1 ∨
        (deletePostHandler c db).store = some db1 → p ∈ db1.posts) := by
  have hupd : updatePostHandler now c db = .respond 403 (.error "not the post author") db := by
    unfold updatePostHandler
    rw [parseUintParam_eq c p.ID hid]
    simp only [firstPost_of_mem db p hkeys hp, hu]
    have : (p.UserID != u) = true := by simpa using fun h => hne h.symm
    simp [this, respondError]
  have hdel : deletePostHandler c db = .respond 403 (.error "not the post author") db := by
    unfold deletePostHandler
    rw [parseUintParam_eq c p.ID hid]
    simp only [firstPost_of_mem db p hkeys hp, hu]
    have : (p.UserID != u) = true := by simpa using fun h => hne h.symm
    simp [this, respondError]
  refine ⟨hupd, hdel, ?_⟩
  intro db1 h
  rw [hupd, hdel] at h
  simp [Outcome.store] at h
  subst h
  exact hp

theorem C1_not_owner_forbidden_witness :
    updatePostHandler 9 requestC1 storeC1 = .respond 403 (.error "not the post author") storeC1 ∧
    deletePostHandler requestC1 storeC1 = .respond 403 (.error "not the post author") storeC1 ∧
    (∀ db1, (updatePostHandler 9 requestC1 storeC1).store = some db1 ∨
        (deletePostHandler requestC1 storeC1).store = some db1 →
          (⟨1, "t", "c", 7, User.zero, 5, 5⟩ : Post) ∈ db1.posts) :=
  C1_not_owner_forbidden 9 requestC1 storeC1 ⟨1, "t", "c", 7, User.zero, 5, 5⟩ 8
    (by decide) (by decide) (by decide) (by decide) (by decide)

/-! ## C2: the four outcomes of the middleware -/

theorem cutAtSpace_append (a b : List Char) (ha : ' ' ∉ a) :
    cutAtSpace (a ++ ' ' :: b) = some (a, b) := by
  induction a with
  | nil => simp [cutAtSpace]
  | cons x xs ih =>
    simp only [List.mem_cons, not_or] at ha
    have hx : x ≠ ' ' := fun h => ha.1 h.symm
    simp [cutAtSpace, hx, ih ha.2]

theorem cutAtSpace_some (l a b : List Char) (h : cutAtSpace l = some (a, b)) :
    l = a ++ ' ' :: b := by
  induction l generalizing a with
  | nil => simp [cutAtSpace] at h
  | cons x xs ih =>
    simp only [cutAtSpace] at h
    by_cases hx : x = ' '
    · simp [hx] at h
      simp [hx, h.1.symm, h.2]
    · simp only [hx, if_false] at h
      cases hc : cutAtSpace xs with
      | none => rw [hc] at h; simp at h
      | some ab =>
        obtain ⟨a1, b1⟩ := ab
        rw [hc] at h
        simp at h
        obtain ⟨h1, h2⟩ := h
        subst h1 h2
        rw [ih a1 hc]
        simp

theorem lower_bearer_no_space (scheme : String) (h : ToLower scheme = "bearer") :
    ' ' ∉ scheme.data := by
  intro hmem
  have h1 : (scheme.data.map lowerChar) = "bearer".data := by
    have := congrArg String.data h
    simpa [ToLower] using this
  have h2 : lowerChar ' ' ∈ scheme.data.map lowerChar := List.mem_map_of_mem _ hmem
  rw [h1] at h2
  revert h2
  decide

theorem SplitN2_bearer (scheme token : String) (h : ToLower scheme = "bearer") :
    SplitN2 (scheme ++ " " ++ token) = [scheme, token] := by
  unfold SplitN2
  have hd : (scheme ++ " " ++ token).data = scheme.data ++ ' ' :: token.data := by
    simp [String.data_append]
  rw [hd, cutAtSpace_append _ _ (lower_bearer_no_space scheme h)]

theorem SplitN2_cases (header : String) :
    SplitN2 header = [header] ∨
      ∃ a b : String, SplitN2 header = [a, b] ∧ header = a ++ " " ++ b := by
  unfold SplitN2
  cases hc : cutAtSpace header.data with
  | none => exact Or.inl rfl
  | some ab =>
    obtain ⟨a, b⟩ := ab
    refine Or.inr ⟨String.mk a, String.mk b, rfl, ?_⟩
    apply String.ext
    simp [String.data_append, cutAtSpace_some _ _ _ hc]

theorem Get_userID_after_Set (c : Context) (n : Nat) (name : String) :
    ((c.Set "userID" (.uint n)).Set "username" (.string name)).Get "userID" = some (.uint n) := by
  simp [Context.Set, Context.Get, List.lookup, List.filter]

theorem Get_username_after_Set (c : Context) (n : Nat) (name : String) :
    ((c.Set "userID" (.uint n)).Set "username" (.string name)).Get "username" =
      some (.string name) := by
  simp [Context.Set, Context.Get, List.lookup]

theorem authMiddleware_bearer (lib : Lib) (env : String) (now : Time) (c : Context) (db : DB)
    (scheme token : String) (hform : c.Authorization = scheme ++ " " ++ token)
    (hlow : ToLower scheme = "bearer") :
    (∀ e, parseToken lib env now token = .error e →
      ∀ next, authMiddleware lib env now next c db =
        .respond 401 (.error "invalid or expired token") db) ∧
    (∀ claims, parseToken lib env now token = .ok claims →
      ∀ next, authMiddleware lib env now next c db =
        next ((c.Set "userID" (.uint claims.UserID)).Set "username"
          (.string claims.Username)) db) := by
  have hne : c.Authorization ≠ "" := by
    intro h0
    rw [hform] at h0
    have := congrArg String.data h0
    simp [String.data_append] at this
  have hsplit : SplitN2 c.Authorization = [scheme, token] := by
    rw [hform]
    exact SplitN2_bearer scheme token hlow
  refine ⟨?_, ?_⟩
  · intro e he next
    unfold authMiddleware
    simp only [hne, if_false]
    rw [hsplit]
    simp [hlow, he, respondError]
  · intro claims hc next
    unfold authMiddleware
    simp only [hne, if_false]
    rw [hsplit]
    simp [hlow, hc]

/-- C2: for every value of the Authorization header, `authMiddleware` does
one of four things.  An empty header: 401 "missing authorization header".  A
non-empty header that is not a scheme, equal to bearer up to letter case,
followed by a space and a token: 401 "invalid authorization header".  Such a
header whose token `parseToken` rejects: 401 "invalid or expired token".
Otherwise the next handler runs on the context in which `userID` and
`username` hold the claims of the token.  In the three 401 cases the outcome
is the same for every next handler and the store is untouched: the next
handler is not run. -/
theorem C2_auth_outcomes (lib : Lib) (env : String) (now : Time) (c : Context) (db : DB) :
    (c.Authorization = "" → ∀ next, authMiddleware lib env now next c db =
        .respond 401 (.error "missing authorization header") db) ∧
    (c.Authorization ≠ "" →
      (¬ ∃ scheme token : String,
          c.Authorization = scheme ++ " " ++ token ∧ ToLower scheme = "bearer") →
      ∀ next, authMiddleware lib env now next c db =
        .respond 401 (.error "invalid authorization header") db) ∧
    (∀ scheme token : String,
      c.Authorization = scheme ++ " " ++ token → ToLower scheme = "bearer" →
      (∀ e, parseToken lib env now token = .error e →
        ∀ next, authMiddleware lib env now next c db =
          .respond 401 (.error "invalid or expired token") db) ∧
      (∀ claims, parseToken lib env now token = .ok claims →
        (∀ next, authMiddleware lib env now next c db =
          next ((c.Set "userID" (.uint claims.UserID)).Set "username"
            (.string claims.Username)) db) ∧
        ((c.Set "userID" (.uint claims.UserID)).Set "username"
            (.string claims.Username)).Get "userID" = some (.uint claims.UserID) ∧
        ((c.Set "userID" (.uint claims.UserID)).Set "username"
            (.string claims.Username)).Get "username" = some (.string claims.Username))) := by
  refine ⟨?_, ?_, ?_⟩
  · intro h next
    simp [authMiddleware, h, respondError]
  · intro hne hnot next
    unfold authMiddleware
    simp only [hne, if_false]
    rcases SplitN2_cases c.Authorization with h1 | ⟨a, b, h2, hab⟩
    · rw [h1]
      rfl
    · rw [h2]
      have hlow : ToLower a ≠ "bearer" := fun hl => hnot ⟨a, b, hab, hl⟩
      simp [hlow, respondError]
  · intro scheme token hform hlow
    have haux := authMiddleware_bearer lib env now c db scheme token hform hlow
    exact ⟨haux.1, fun claims hc =>
      ⟨haux.2 claims hc, Get_userID_after_Set c _ _, Get_username_after_Set c _ _⟩⟩

theorem C2_auth_outcomes_witness :
    authMiddleware toyLib "" 5000000000 (createPostHandler 10) requestC10 storeAnn =
      createPostHandler 10 ((requestC10.Set "userID" (.uint 1)).Set "username"
        (.string "ann")) storeAnn ∧
    authMiddleware toyLib "" 5000000000 (createPostHandler 10) requestC3 storeAnn =
      .respond 401 (.error "missing authorization header") storeAnn :=
  ⟨(((C2_auth_outcomes toyLib "" 5000000000 requestC10 storeAnn).2.2 "Bearer"
      "HS256.ann.dev_secret_change_me/HS256/ann" (by decide) (by decide)).2
      (tokenClaims t09 t09 annRow) (by decide)).1 (createPostHandler 10),
   (C2_auth_outcomes toyLib "" 5000000000 requestC3 storeAnn).1 (by decide)
      (createPostHandler 10)⟩

/-! ## C3: bodies that do not bind -/

theorem bindPost_folds_keys :
    bindPost (.object [("Title", .string "x"), ("CONTENT", .string "y")]) = .ok ⟨"x", "y"⟩ ∧
    bindRegister (.object [("uſername", .string "a"), ("PASSWORD", .string "b"),
      ("Email", .string "c")]) = .ok ⟨"a", "b", "c"⟩ := by
  decide

theorem bindPost_last_member_wins :
    bindPost (.object [("title", .string ""), ("title", .string "b"),
      ("content", .string "c")]) = .ok ⟨"b", "c"⟩ ∧
    bindPost (.object [("title", .string "a"), ("title", .null),
      ("content", .string "c")]) = .ok ⟨"a", "c"⟩ ∧
    bindPost (.object [("title", .other "number"), ("title", .string "a"),
      ("content", .string "c")]) =
      .error "json: cannot unmarshal number into Go struct field postRequest.title of type string" := by
  decide

theorem Atoi_empty (s : String) (h : s = "") : Atoi s = none := by
  subst h
  rfl

theorem listPosts_bad_limit (c : Context) (db : DB) (hne : c.limit ≠ "")
    (hbad : ¬ ∃ n : Int, Atoi c.limit = some n ∧ 0 < n) :
    listPostsHandler c db = .respond 400 (.error "invalid limit") db := by
  unfold listPostsHandler
  cases ha : Atoi c.limit with
  | none => simp [hne, respondError]
  | some n =>
    have hn : n ≤ 0 := by
      by_contra hcon
      exact hbad ⟨n, ha, by omega⟩
    simp [hne, hn, respondError]

theorem listPosts_bad_offset (c : Context) (db : DB)
    (hlim : c.limit = "" ∨ ∃ n : Int, Atoi c.limit = some n ∧ 0 < n)
    (hne : c.offset ≠ "") (hbad : ¬ ∃ n : Int, Atoi c.offset = some n ∧ 0 ≤ n) :
    listPostsHandler c db = .respond 400 (.error "invalid offset") db := by
  unfold listPostsHandler
  have hoff : (if c.offset = "" then (Except.ok none : Except Unit (Option Nat))
      else
        match Atoi c.offset with
        | none => .error ()
        | some parsed => if parsed < 0 then .error () else .ok (some parsed.toNat)) =
      .error () := by
    cases ha : Atoi c.offset with
    | none => simp [hne]
    | some n =>
      have hn : n < 0 := by
        by_contra hcon
        exact hbad ⟨n, ha, by omega⟩
      simp [hne, hn]
  rcases hlim with hl | ⟨n, hn, hpos⟩
  · simp only [hl]
    simp [hoff, respondError]
  · have hlne : c.limit ≠ "" := fun h0 => by simp [Atoi_empty _ h0] at hn
    have hnot : ¬ n ≤ 0 := by omega
    simp [hlne, hn, hnot, hoff, respondError]

theorem listPosts_ok (c : Context) (db : DB)
    (hlim : c.limit = "" ∨ ∃ n : Int, Atoi c.limit = some n ∧ 0 < n)
    (hoff : c.offset = "" ∨ ∃ n : Int, Atoi c.offset = some n ∧ 0 ≤ n) :
    ∃ ps, listPostsHandler c db = .respond 200 (.posts ps) db := by
  unfold listPostsHandler
  rcases hlim with hl | ⟨n, hn, hpos⟩
  · rcases hoff with ho | ⟨m, hm, hmpos⟩
    · simp [hl, ho, DB.findPosts, respondJSON]
    · have hone : c.offset ≠ "" := fun h0 => by simp [Atoi_empty _ h0] at hm
      have hnot : ¬ m < 0 := by omega
      simp [hl, hone, hm, hnot, DB.findPosts, respondJSON]
  · have hlne : c.limit ≠ "" := fun h0 => by simp [Atoi_empty _ h0] at hn
    have hnot : ¬ n ≤ 0 := by omega
    rcases hoff with ho | ⟨m, hm, hmpos⟩
    · simp [hlne, hn, hnot, ho, DB.findPosts, respondJSON]
    · have hone : c.offset ≠ "" := fun h0 => by simp [Atoi_empty _ h0] at hm
      have hnot2 : ¬ m < 0 := by omega
      simp [hlne, hn, hnot, hone, hm, hnot2, DB.findPosts, respondJSON]

/-- C4: `listPostsHandler` responds 400 exactly when `limit` is non-empty and
does not parse as an integer greater than 0, or `offset` is non-empty and does
not parse as an integer greater than or equal to 0.  So a non-empty value that
`strconv.Atoi` rejects and a negative value, of either parameter, give 400,
and a request without both parameters never does. -/
theorem C4_list_posts_400 (c : Context) (db : DB) :
    ((listPostsHandler c db).status = some 400 ↔
      (c.limit ≠ "" ∧ ¬ ∃ n : Int, Atoi c.limit = some n ∧ 0 < n) ∨
      (c.offset ≠ "" ∧ ¬ ∃ n : Int, Atoi c.offset = some n ∧ 0 ≤ n)) ∧
    (c.limit ≠ "" ∧ Atoi c.limit = none → (listPostsHandler c db).status = some 400) ∧
    (c.offset ≠ "" ∧ Atoi c.offset = none → (listPostsHandler c db).status = some 400) ∧
    (∀ n : Int, n < 0 → (Atoi c.limit = some n ∨ Atoi c.offset = some n) →
      (listPostsHandler c db).status = some 400) ∧
    (c.limit = "" ∧ c.offset = "" → (listPostsHandler c db).status ≠ some 400) := by
  have hiff : (listPostsHandler c db).status = some 400 ↔
      (c.limit ≠ "" ∧ ¬ ∃ n : Int, Atoi c.limit = some n ∧ 0 < n) ∨
      (c.offset ≠ "" ∧ ¬ ∃ n : Int, Atoi c.offset = some n ∧ 0 ≤ n) := by
    by_cases hl : c.limit ≠ "" ∧ ¬ ∃ n : Int, Atoi c.limit = some n ∧ 0 < n
    · rw [listPosts_bad_limit c db hl.1 hl.2]
      simp [Outcome.status, hl]
    · have hlim : c.limit = "" ∨ ∃ n : Int, Atoi c.limit = some n ∧ 0 < n := by
        by_cases h0 : c.limit = ""
        · exact Or.inl h0
        · right
          by_contra hcon
          exact hl ⟨h0, hcon⟩
      by_cases ho : c.offset ≠ "" ∧ ¬ ∃ n : Int, Atoi c.offset = some n ∧ 0 ≤ n
      · rw [listPosts_bad_offset c db hlim ho.1 ho.2]
        simp [Outcome.status, ho]
      · have hoff : c.offset = "" ∨ ∃ n : Int, Atoi c.offset = some n ∧ 0 ≤ n := by
          by_cases h0 : c.offset = ""
          · exact Or.inl h0
          · right
            by_contra hcon
            exact ho ⟨h0, hcon⟩
        obtain ⟨ps, hps⟩ := listPosts_ok c db hlim hoff
        rw [hps]
        simp only [Outcome.status]
        constructor
        · intro h
          simp at h
        · rintro (h | h)
          · exact absurd h hl
          · exact absurd h ho
  refine ⟨hiff, ?_, ?_, ?_, ?_⟩
  · rintro ⟨hne, hnone⟩
    exact hiff.mpr (Or.inl ⟨hne, by simp [hnone]⟩)
  · rintro ⟨hne, hnone⟩
    exact hiff.mpr (Or.inr ⟨hne, by simp [hnone]⟩)
  · intro n hneg h
    rcases h with h | h
    · have hne : c.limit ≠ "" := fun h0 => by simp [Atoi_empty _ h0] at h
      refine hiff.mpr (Or.inl ⟨hne, ?_⟩)
      rintro ⟨m, hm, hpos⟩
      rw [h] at hm
      simp at hm
      omega
    · have hne : c.offset ≠ "" := fun h0 => by simp [Atoi_empty _ h0] at h
      refine hiff.mpr (Or.inr ⟨hne, ?_⟩)
      rintro ⟨m, hm, hpos⟩
      rw [h] at hm
      simp at hm
      omega
  · rintro ⟨hl, ho⟩ h400
    rcases hiff.mp h400 with h | h
    · exact h.1 hl
    · exact h.1 ho

theorem C4_list_posts_400_witness :
    (listPostsHandler ⟨"", "", "abc", "", .malformed "EOF", []⟩ initDB).status = some 400 ∧
    (listPostsHandler ⟨"", "", "5", "-1", .malformed "EOF", []⟩ initDB).status = some 400 ∧
    (listPostsHandler ⟨"", "", "", "", .malformed "EOF", []⟩ initDB).status ≠ some 400 :=
  ⟨(C4_list_posts_400 ⟨"", "", "abc", "", .malformed "EOF", []⟩ initDB).2.1
      ⟨by decide, by decide⟩,
   (C4_list_posts_400 ⟨"", "", "5", "-1", .malformed "EOF", []⟩ initDB).2.2.2.1 (-1)
      (by decide) (Or.inr (by decide)),
   (C4_list_posts_400 ⟨"", "", "", "", .malformed "EOF", []⟩ initDB).2.2.2.2
      ⟨by decide, by decide⟩⟩

theorem orderCreatedDesc_perm (ps : List Post) : (orderCreatedDesc ps).Perm ps :=
  List.perm_insertionSort _ ps

theorem orderCreatedDesc_sorted (ps : List Post) :
    (orderCreatedDesc ps).Sorted (fun a b => b.CreatedAt ≤ a.CreatedAt) := by
  haveI : IsTotal Post (fun a b => b.CreatedAt ≤ a.CreatedAt) :=
    ⟨fun a b => Nat.le_total b.CreatedAt a.CreatedAt⟩
  haveI : IsTrans Post (fun a b => b.CreatedAt ≤ a.CreatedAt) :=
    ⟨fun _ _ _ hab hbc => Nat.le_trans hbc hab⟩
  exact List.sorted_insertionSort _ ps

theorem listPosts_window (c : Context) (db : DB) (l o : Int)
    (hl : Atoi c.limit = some l) (hlpos : 0 < l)
    (ho : Atoi c.offset = some o) (honn : 0 ≤ o) :
    listPostsHandler c db = .respond 200 (.posts
      ((((orderCreatedDesc db.posts).drop o.toNat).take l.toNat).map
        (fun p => { p with User := db.preloadUser p.UserID }))) db := by
  unfold listPostsHandler
  have hlne : c.limit ≠ "" := fun h0 => by simp [Atoi_empty _ h0] at hl
  have hone : c.offset ≠ "" := fun h0 => by simp [Atoi_empty _ h0] at ho
  have h1 : ¬ l ≤ 0 := by omega
  have h2 : ¬ o < 0 := by omega
  simp [hlne, hone, hl, ho, h1, h2, DB.findPosts, respondJSON]

/-- C5: for a limit that parses to `l > 0` and an offset that parses to
`o >= 0`, `listPostsHandler` responds 200 with the posts of the store put in
order of creation time, newest first (a rearrangement of the table in which no
post comes before a newer one), without the first `o` of them and cut after
`l`, each with its author loaded.  With limit 2, offset 1 and at least 3 posts
the answer is the second and the third of that order, in that order. -/
theorem C5_list_posts_window (c : Context) (db : DB) (l o : Int)
    (hl : Atoi c.limit = some l) (hlpos : 0 < l)
    (ho : Atoi c.offset = some o) (honn : 0 ≤ o) :
    listPostsHandler c db = .respond 200 (.posts
      ((((orderCreatedDesc db.posts).drop o.toNat).take l.toNat).map
        (fun p => { p with User := db.preloadUser p.UserID }))) db ∧
    (orderCreatedDesc db.posts).Perm db.posts ∧
    (orderCreatedDesc db.posts).Sorted (fun a b => b.CreatedAt ≤ a.CreatedAt) ∧
    (l = 2 → o = 1 → 3 ≤ db.posts.length →
      ∃ p1 p2 p3 rest, orderCreatedDesc db.posts = p1 :: p2 :: p3 :: rest ∧
        listPostsHandler c db = .respond 200 (.posts
          [{ p2 with User := db.preloadUser p2.UserID },
           { p3 with User := db.preloadUser p3.UserID }]) db) := by
  refine ⟨listPosts_window c db l o hl hlpos ho honn, orderCreatedDesc_perm _,
    orderCreatedDesc_sorted _, ?_⟩
  intro h2 h1 hlen
  have hlen2 : 3 ≤ (orderCreatedDesc db.posts).length := by
    rw [(orderCreatedDesc_perm db.posts).length_eq]
    exact hlen
  rw [listPosts_window c db l o hl hlpos ho honn]
  subst h2 h1
  match hs : orderCreatedDesc db.posts, hlen2 with
  | p1 :: p2 :: p3 :: rest, _ =>
    exact ⟨p1, p2, p3, rest, rfl, by simp⟩

theorem C5_list_posts_window_witness :
    listPostsHandler requestC5 storeC5 = .respond 200 (.posts
      [⟨2, "b", "y", 7, ⟨7, "ann", "h", "ann@x.com", 1, 1⟩, 20, 20⟩,
       ⟨1, "a", "x", 7, ⟨7, "ann", "h", "ann@x.com", 1, 1⟩, 10, 10⟩]) storeC5 :=
  (C5_list_posts_window requestC5 storeC5 2 1 (by decide) (by decide) (by decide)
    (by decide)).1.trans (by decide)

/-! ## C6: registration and the uniqueness of usernames and emails -/

theorem firstUser_found (db : DB) (cond : User → Bool) (h : ∃ u ∈ db.users, cond u = true) :
    ∃ u, db.firstUser cond = .ok u := by
  unfold DB.firstUser
  cases hf : firstByKey User.ID (db.users.filter cond) with
  | some u => exact ⟨u, rfl⟩
  | none =>
    obtain ⟨u, hu, hc⟩ := h
    have hnil := (firstByKey_eq_none _ _).mp hf
    have : u ∈ db.users.filter cond := by simp [List.mem_filter, hu, hc]
    rw [hnil] at this
    simp at this

theorem firstUser_missing (db : DB) (cond : User → Bool) (h : ∀ u ∈ db.users, cond u = false) :
    db.firstUser cond = .error .ErrRecordNotFound := by
  unfold DB.firstUser
  have : db.users.filter cond = [] := by
    rw [List.filter_eq_nil_iff]
    intro u hu
    simp [h u hu]
  rw [this]
  rfl

theorem register_conflict (lib : Lib) (now : Time) (c : Context) (db : DB)
    (req : registerRequest) (hreq : bindRegister c.body = .ok req)
    (h : ∃ u ∈ db.users, u.Username = req.Username ∨ u.Email = req.Email) :
    registerHandler lib now c db =
      .respond 409 (.error "username or email already exists") db := by
  obtain ⟨u, hu⟩ := firstUser_found db
    (fun u => u.Username == req.Username || u.Email == req.Email)
    (by
      obtain ⟨u, hmem, hor⟩ := h
      exact ⟨u, hmem, by simpa using hor⟩)
  simp [registerHandler, hreq, hu, respondError]

theorem register_lookup_missing (db : DB) (req : registerRequest)
    (h : ¬ ∃ u ∈ db.users, u.Username = req.Username ∨ u.Email = req.Email) :
    db.firstUser (fun u => u.Username == req.Username || u.Email == req.Email) =
      .error .ErrRecordNotFound := by
  apply firstUser_missing
  intro u hu
  have : ¬ (u.Username = req.Username ∨ u.Email = req.Email) := fun hor => h ⟨u, hu, hor⟩
  simpa using this

theorem register_hash_failure (lib : Lib) (now : Time) (c : Context) (db : DB)
    (req : registerRequest) (hreq : bindRegister c.body = .ok req)
    (h : ¬ ∃ u ∈ db.users, u.Username = req.Username ∨ u.Email = req.Email)
    (hhash : lib.bcryptGenerate req.Password = none) :
    registerHandler lib now c db = .respond 500 (.error "failed to hash password") db := by
  simp [registerHandler, hreq, register_lookup_missing db req h, hashPassword, hhash,
    respondError]

theorem register_created (lib : Lib) (now : Time) (c : Context) (db : DB)
    (req : registerRequest) (hreq : bindRegister c.body = .ok req)
    (h : ¬ ∃ u ∈ db.users, u.Username = req.Username ∨ u.Email = req.Email)
    (hashed : String) (hhash : lib.bcryptGenerate req.Password = some hashed) :
    registerHandler lib now c db = .respond 201 (.message "user registered")
      { db with users := db.users ++ [registeredRow db now req hashed],
                userSeq := nextID User.ID db.users db.userSeq } := by
  have hname : db.users.any (fun x => x.Username == req.Username) = false := by
    rw [List.any_eq_false]
    intro u hu
    have : u.Username ≠ req.Username := fun he => h ⟨u, hu, Or.inl he⟩
    simpa using this
  have hmail : db.users.any (fun x => x.Email == req.Email) = false := by
    rw [List.any_eq_false]
    intro u hu
    have : u.Email ≠ req.Email := fun he => h ⟨u, hu, Or.inr he⟩
    simpa using this
  simp [registerHandler, hreq, register_lookup_missing db req h, hashPassword, hhash,
    DB.createUser, hname, hmail, respondJSON, registeredRow]

/-- C6, amended: in a store with unique usernames and unique emails, for a
request that binds, `registerHandler` responds 409 and returns the store
unchanged when the username or the email belongs to a stored user; otherwise,
when bcrypt hashes the password, it responds 201 and appends exactly one user
(with that username, that email and the hash), and when bcrypt fails it
responds 500 and returns the store unchanged.  Uniqueness of usernames and of
emails holds in the store after the call, and after a registration that
succeeded a request with the same username or the same email gets 409. -/
theorem C6_register_unique (lib : Lib) (now : Time) (c : Context) (db : DB)
    (req : registerRequest) (huniq : usersUnique db)
    (hreq : bindRegister c.body = .ok req) :
    ((∃ u ∈ db.users, u.Username = req.Username ∨ u.Email = req.Email) →
      registerHandler lib now c db =
        .respond 409 (.error "username or email already exists") db) ∧
    ((¬ ∃ u ∈ db.users, u.Username = req.Username ∨ u.Email = req.Email) →
      (∀ hashed, lib.bcryptGenerate req.Password = some hashed →
        registerHandler lib now c db = .respond 201 (.message "user registered")
          { db with users := db.users ++ [registeredRow db now req hashed],
                    userSeq := nextID User.ID db.users db.userSeq }) ∧
      (lib.bcryptGenerate req.Password = none →
        registerHandler lib now c db =
          .respond 500 (.error "failed to hash password") db)) ∧
    (∀ db1, (registerHandler lib now c db).store = some db1 → usersUnique db1) ∧
    (∀ payload db1, registerHandler lib now c db = .respond 201 payload db1 →
      ∀ (now2 : Time) (c2 : Context) (req2 : registerRequest),
        bindRegister c2.body = .ok req2 →
        req2.Username = req.Username ∨ req2.Email = req.Email →
        registerHandler lib now2 c2 db1 =
          .respond 409 (.error "username or email already exists") db1) := by
  by_cases hex : ∃ u ∈ db.users, u.Username = req.Username ∨ u.Email = req.Email
  · have h409 := register_conflict lib now c db req hreq hex
    refine ⟨fun _ => h409, fun hno => absurd hex hno, ?_, ?_⟩
    · intro db1 h
      rw [h409] at h
      simp [Outcome.store] at h
      subst h
      exact huniq
    · intro payload db1 h
      rw [h409] at h
      simp at h
  · refine ⟨fun h => absurd h hex, fun _ =>
      ⟨fun hashed hh => register_created lib now c db req hreq hex hashed hh,
       fun hh => register_hash_failure lib now c db req hreq hex hh⟩, ?_, ?_⟩
    · intro db1 h
      cases hh : lib.bcryptGenerate req.Password with
      | none =>
        rw [register_hash_failure lib now c db req hreq hex hh] at h
        simp [Outcome.store] at h
        subst h
        exact huniq
      | some hashed =>
        rw [register_created lib now c db req hreq hex hashed hh] at h
        simp [Outcome.store] at h
        subst h
        have hname : ∀ u ∈ db.users, u.Username ≠ req.Username :=
          fun u hu he => hex ⟨u, hu, Or.inl he⟩
        have hmail : ∀ u ∈ db.users, u.Email ≠ req.Email :=
          fun u hu he => hex ⟨u, hu, Or.inr he⟩
        constructor
        · simp only [List.map_append, List.map_cons, List.map_nil]
          rw [List.nodup_append]
          refine ⟨huniq.1, by simp, ?_⟩
          intro a ha hb
          simp only [List.mem_map] at ha
          obtain ⟨u, hu, rfl⟩ := ha
          simp only [registeredRow, List.mem_singleton] at hb
          exact hname u hu hb
        · simp only [List.map_append, List.map_cons, List.map_nil]
          rw [List.nodup_append]
          refine ⟨huniq.2, by simp, ?_⟩
          intro a ha hb
          simp only [List.mem_map] at ha
          obtain ⟨u, hu, rfl⟩ := ha
          simp only [registeredRow, List.mem_singleton] at hb
          exact hmail u hu hb
    · intro payload db1 h now2 c2 req2 hreq2 hsame
      cases hh : lib.bcryptGenerate req.Password with
      | none =>
        rw [register_hash_failure lib now c db req hreq hex hh] at h
        simp at h
      | some hashed =>
        rw [register_created lib now c db req hreq hex hashed hh] at h
        simp only [Outcome.respond.injEq] at h
        obtain ⟨-, -, hdb⟩ := h
        subst hdb
        apply register_conflict lib now2 c2 _ req2 hreq2
        refine ⟨registeredRow db now req hashed, by simp, ?_⟩
        simpa [registeredRow, eq_comm] using hsame

/-! ## A small instance of the library primitives, for the concrete runs -/

theorem usersUnique_storeAnn : usersUnique storeAnn := by
  unfold usersUnique
  constructor <;> decide

/-- C6, as stated, fails: the username and the email of the request belong to
no stored user, yet no user is added; bcrypt refuses the password and the
response is 500. -/
theorem C6_counterexample :
    usersUnique storeAnn ∧
    bindRegister requestRegisterLong.body = .ok ⟨"bob", longPassword, "bob@x.com"⟩ ∧
    (¬ ∃ u ∈ storeAnn.users, u.Username = "bob" ∨ u.Email = "bob@x.com") ∧
    registerHandler toyLib 9 requestRegisterLong storeAnn =
      .respond 500 (.error "failed to hash password") storeAnn :=
  ⟨usersUnique_storeAnn, by decide, by decide, by decide⟩

theorem C6_register_unique_witness :
    registerHandler toyLib 5 requestRegister initDB =
      .respond 201 (.message "user registered") storeAnn ∧
    registerHandler toyLib 9 requestRegister storeAnn =
      .respond 409 (.error "username or email already exists") storeAnn :=
  ⟨((C6_register_unique toyLib 5 requestRegister initDB ⟨"ann", "pw", "ann@x.com"⟩
      (by unfold usersUnique; constructor <;> decide) (by decide)).2.1 (by decide)).1
      "$2a$10$pw" (by decide) |>.trans (by decide),
   (C6_register_unique toyLib 9 requestRegister storeAnn ⟨"ann", "pw", "ann@x.com"⟩
      usersUnique_storeAnn (by decide)).1 (by decide)⟩

/-! ## C7: a generated token is accepted until it expires -/

theorem GetSigningMethod_HS256 : GetSigningMethod "HS256" = some (.HMAC "HS256") := by
  decide

theorem validate_generated (now1 now2 now : Time) (user : User)
    (hnow : now < NewNumericDate (now1 + 24 * hour)) :
    validateClaims now (tokenClaims now1 now2 user) = .ok () := by
  unfold validateClaims tokenClaims
  simp only [if_pos hnow]

theorem ParseWithClaims_hmac (lib : Lib) (env : String) (now : Time) (s name : String)
    (tok : Token) (hdec : lib.decode s = some tok) (halg : tok.alg = some name)
    (hm : GetSigningMethod name = some (.HMAC name))
    (hsig : tok.signature = lib.hmac name (jwtSecret env) tok.alg tok.claims)
    (hval : validateClaims now tok.claims = .ok ()) :
    parseToken lib env now s = .ok tok.claims := by
  unfold parseToken ParseWithClaims
  rw [hdec]
  simp only [halg, hm, keyFunc, verifyHMAC]
  rw [hsig, halg]
  simp only [beq_self_eq_true, if_true, hval]
  rfl

theorem parse_generated (lib : Lib) (env : String) (now1 now2 now : Time) (user : User)
    (hcodec : lib.decode (lib.encode
        (signedToken lib "HS256" (jwtSecret env) (tokenClaims now1 now2 user))) =
      some (signedToken lib "HS256" (jwtSecret env) (tokenClaims now1 now2 user)))
    (hnow : now < NewNumericDate (now1 + 24 * hour)) :
    parseToken lib env now (lib.encode
        (signedToken lib "HS256" (jwtSecret env) (tokenClaims now1 now2 user))) =
      .ok (tokenClaims now1 now2 user) :=
  ParseWithClaims_hmac lib env now _ "HS256" _ hcodec rfl GetSigningMethod_HS256 rfl
    (validate_generated now1 now2 now user hnow)
theorem register_201_inv (lib : Lib) (now : Time) (c : Context) (db db1 : DB)
    (req : registerRequest) (payload : Payload) (hreq : bindRegister c.body = .ok req)
    (h : registerHandler lib now c db = .respond 201 payload db1) :
    (¬ ∃ u ∈ db.users, u.Username = req.Username ∨ u.Email = req.Email) ∧
    ∃ hashed, lib.bcryptGenerate req.Password = some hashed ∧
      db1.users = db.users ++ [registeredRow db now req hashed] := by
  by_cases hex : ∃ u ∈ db.users, u.Username = req.Username ∨ u.Email = req.Email
  · rw [register_conflict lib now c db req hreq hex] at h
    simp at h
  · refine ⟨hex, ?_⟩
    cases hh : lib.bcryptGenerate req.Password with
    | none =>
      rw [register_hash_failure lib now c db req hreq hex hh] at h
      simp at h
    | some hashed =>
      rw [register_created lib now c db req hreq hex hashed hh] at h
      simp only [Outcome.respond.injEq] at h
      obtain ⟨-, -, hdb⟩ := h
      subst hdb
      exact ⟨hashed, rfl, rfl⟩

theorem login_after_register (lib : Lib) (env : String) (t0 now1 now2 : Time)
    (creg clog : Context) (db db1 : DB) (req : registerRequest) (payload : Payload)
    (user : User)
    (hreq : bindRegister creg.body = .ok req)
    (hreg : registerHandler lib t0 creg db = .respond 201 payload db1)
    (hlog : bindLogin clog.body = .ok ⟨req.Username, req.Password⟩)
    (hbcrypt : ∀ h, lib.bcryptGenerate req.Password = some h →
      lib.bcryptCompare h req.Password = true)
    (huser : user ∈ db1.users) (hname : user.Username = req.Username) :
    loginHandler lib env now1 now2 clog db1 = .respond 200
      (.login (lib.encode (signedToken lib "HS256" (jwtSecret env)
        (tokenClaims now1 now2 user))) user.ID user.Username user.Email) db1 := by
  obtain ⟨hno, hashed, hh, husers⟩ := register_201_inv lib t0 creg db db1 req payload hreq hreg
  have hrow : user = registeredRow db t0 req hashed := by
    rw [husers] at huser
    rcases List.mem_append.mp huser with hold | hnew
    · exact absurd ⟨user, hold, Or.inl hname⟩ hno
    · simpa using hnew
  have hfilter : db1.users.filter (fun u => u.Username == req.Username) = [user] := by
    rw [husers, List.filter_append]
    have hnil : db.users.filter (fun u => u.Username == req.Username) = [] := by
      rw [List.filter_eq_nil_iff]
      intro u hu
      have : u.Username ≠ req.Username := fun he => hno ⟨u, hu, Or.inl he⟩
      simpa using this
    rw [hnil, hrow]
    simp [registeredRow]
  have hfirst : db1.firstUser (fun u => u.Username == req.Username) = .ok user := by
    unfold DB.firstUser
    rw [hfilter, firstByKey_singleton]
  have hpw : lib.bcryptCompare user.Password req.Password = true := by
    rw [hrow]
    exact hbcrypt hashed hh
  simp [loginHandler, hlog, hfirst, checkPassword, hpw, generateToken, respondJSON]

theorem auth_bearer_ok (lib : Lib) (env : String) (now : Time) (token : String)
    (claims : jwtClaims) (hparse : parseToken lib env now token = .ok claims)
    (c : Context) (hc : c.Authorization = "Bearer " ++ token)
    (next : Context → DB → Outcome) (db : DB) :
    authMiddleware lib env now next c db =
      next ((c.Set "userID" (.uint claims.UserID)).Set "username"
        (.string claims.Username)) db := by
  have hform : c.Authorization = "Bearer" ++ " " ++ token := by
    rw [hc]
    apply String.ext
    simp [String.data_append]
  exact (authMiddleware_bearer lib env now c db "Bearer" token hform (by decide)).2
    claims hparse next

/-- C7, as stated, fails: a token issued at 0.9 s and parsed at 86400.5 s,
which is 23 h 59 min 59.6 s after issue and under the same secret, is
rejected as expired, because its expiry is the issue time plus 24 hours
rounded down to a whole second. -/
theorem C7_counterexample :
    generateToken toyLib "" t09 t09 annRow = .ok (issuedToken toyLib "" t09 t09 annRow) ∧
    t09 ≤ 86400500000000 ∧ 86400500000000 - t09 < 24 * hour ∧
    parseToken toyLib "" 86400500000000 (issuedToken toyLib "" t09 t09 annRow) =
      .error "token is expired" := by
  decide

/-- C7, amended: for every user, the token `generateToken` returns, parsed
under the same secret at any time before its expiry (the first clock reading
of `generateToken` plus 24 hours, rounded down to a whole second), is
accepted by `parseToken` with `UserID` and `Username` of that user, given that
the parser of the compact form reads back what the serialiser wrote.  And when
a registration succeeded and bcrypt accepts the password it hashed, a login
with the same credentials responds 200 with that token and the id of the
registered user, and `authMiddleware`, given the header "Bearer " followed by
the token before the expiry, runs the next handler with `userID` set to that
id. -/
theorem C7_token_accepted_before_expiry (lib : Lib) (env : String) (now1 now2 now : Time)
    (user : User)
    (hcodec : lib.decode (issuedToken lib env now1 now2 user) =
      some (signedToken lib "HS256" (jwtSecret env) (tokenClaims now1 now2 user)))
    (hnow : now < NewNumericDate (now1 + 24 * hour)) :
    generateToken lib env now1 now2 user = .ok (issuedToken lib env now1 now2 user) ∧
    (∃ claims, parseToken lib env now (issuedToken lib env now1 now2 user) = .ok claims ∧
      claims.UserID = user.ID ∧ claims.Username = user.Username) ∧
    (∀ (t0 : Time) (creg clog : Context) (db db1 : DB) (req : registerRequest)
        (payload : Payload),
      bindRegister creg.body = .ok req →
      registerHandler lib t0 creg db = .respond 201 payload db1 →
      bindLogin clog.body = .ok ⟨req.Username, req.Password⟩ →
      (∀ h, lib.bcryptGenerate req.Password = some h →
        lib.bcryptCompare h req.Password = true) →
      user ∈ db1.users → user.Username = req.Username →
      loginHandler lib env now1 now2 clog db1 = .respond 200
        (.login (issuedToken lib env now1 now2 user) user.ID user.Username user.Email) db1 ∧
      ∀ (c : Context) (next : Context → DB → Outcome) (db2 : DB),
        c.Authorization = "Bearer " ++ issuedToken lib env now1 now2 user →
        authMiddleware lib env now next c db2 =
          next ((c.Set "userID" (.uint user.ID)).Set "username"
            (.string user.Username)) db2 ∧
        ((c.Set "userID" (.uint user.ID)).Set "username"
            (.string user.Username)).MustGetUint "userID" = some user.ID) := by
  have hparse := parse_generated lib env now1 now2 now user hcodec hnow
  refine ⟨rfl, ⟨_, hparse, rfl, rfl⟩, ?_⟩
  intro t0 creg clog db db1 req payload hreq hreg hlog hbcrypt huser hname
  refine ⟨login_after_register lib env t0 now1 now2 creg clog db db1 req payload user
    hreq hreg hlog hbcrypt huser hname, ?_⟩
  intro c next db2 hc
  refine ⟨auth_bearer_ok lib env now _ _ hparse c hc next db2, ?_⟩
  simp [Context.MustGetUint, Get_userID_after_Set]

theorem C7_token_accepted_before_expiry_witness :
    (∃ claims, parseToken toyLib "" 86399999999999 (issuedToken toyLib "" t09 t09 annRow) =
        .ok claims ∧ claims.UserID = 1 ∧ claims.Username = "ann") ∧
    loginHandler toyLib "" t09 t09 requestLogin storeAnn = .respond 200
      (.login (issuedToken toyLib "" t09 t09 annRow) 1 "ann" "ann@x.com") storeAnn :=
  have h := C7_token_accepted_before_expiry toyLib "" t09 t09 86399999999999 annRow
    (by decide) (by decide)
  ⟨h.2.1, (h.2.2 5 requestRegister requestLogin initDB storeAnn ⟨"ann", "pw", "ann@x.com"⟩
    (.message "user registered") (by decide) (by decide) (by decide)
    (by
      intro hh hgen
      have : hh = "$2a$10$pw" := by
        have h1 : toyLib.bcryptGenerate "pw" = some "$2a$10$pw" := by decide
        rw [h1] at hgen
        exact (Option.some.inj hgen).symm
      subst this
      decide)
    (by decide) (by decide)).1⟩

/-! ## C8: tokens that verification rejects -/

theorem deletePost_effects (c : Context) (db db1 : DB) (payload : Payload)
    (h : deletePostHandler c db = .respond 200 payload db1) :
    ∃ id, parseUintParam c = some id ∧
      (∀ q ∈ db1.posts, q.ID ≠ id) ∧
      listCommentsHandler c db1 = .respond 404 (.error "post not found") db1 ∧
      db1.comments = db.comments ∧
      (db.foreignKeys = true → ∀ cm ∈ db.comments, cm.PostID ≠ id) := by
  unfold deletePostHandler at h
  cases hid : parseUintParam c with
  | none => simp [hid, respondError] at h
  | some id =>
    simp only [hid] at h
    cases hpost : db.firstPost id with
    | error e =>
      rw [hpost] at h
      cases e <;> simp [respondError] at h
    | ok post =>
      rw [hpost] at h
      obtain ⟨-, hpid⟩ := firstPost_ok_mem db id post hpost
      cases hu : c.MustGetUint "userID" with
      | none => simp [hu] at h
      | some u =>
        simp only [hu] at h
        by_cases hown : (post.UserID != u) = true
        · simp [hown, respondError] at h
        · simp only [hown] at h
          unfold DB.deletePost at h
          by_cases hz : post.ID = 0
          · simp [hz, respondError] at h
          · by_cases hfk : (db.foreignKeys && db.comments.any (fun c => c.PostID == post.ID)) = true
            · simp [hz, hfk, respondError] at h
            · simp only [hz, hfk, if_false, respondJSON, Bool.false_eq_true,
                Outcome.respond.injEq, true_and] at h
              obtain ⟨-, hdb⟩ := h
              subst hdb
              subst hpid
              have hgone : ∀ q ∈ db.posts.filter (fun q => q.ID != post.ID),
                  q.ID ≠ post.ID := by
                intro q hq
                simpa using (List.mem_filter.mp hq).2
              refine ⟨post.ID, rfl, hgone, ?_, rfl, ?_⟩
              · unfold listCommentsHandler
                rw [hid]
                simp only
                rw [firstPost_not_found _ post.ID hgone]
                rfl
              · intro hon cm hcm hpidc
                apply hfk
                simp only [hon, Bool.true_and, List.any_eq_true, beq_iff_eq]
                exact ⟨cm, hcm, hpidc⟩

/-- C9 on the connection `initDB` opens, which does not enforce foreign
keys: starting from the empty store, ann registers, writes post 1 and
comments on it; she then deletes the post and gets 200.  The post is gone and
`listCommentsHandler` answers 404, but the comment with `PostID` 1 is still
stored. -/
theorem C9_delete_leaves_comment :
    initDB.foreignKeys = false ∧
    registerHandler toyLib 5 requestRegister initDB =
      .respond 201 (.message "user registered") storeAnn ∧
    createPostHandler 10 requestNewPost storeAnn =
      .respond 201 (.post ⟨1, "t", "c", 1, User.zero, 10, 10⟩) storePost ∧
    createCommentHandler 20 requestPost1 storePost =
      .respond 201 (.comment ⟨1, "hi", 1, User.zero, 1, 20⟩) storeComment ∧
    deletePostHandler requestPost1 storeComment =
      .respond 200 (.message "post deleted") { storeComment with posts := [] } ∧
    (⟨1, "hi", 1, User.zero, 1, 20⟩ : Comment) ∈
      ({ storeComment with posts := [] } : DB).comments ∧
    listCommentsHandler requestPost1 { storeComment with posts := [] } =
      .respond 404 (.error "post not found") { storeComment with posts := [] } := by
  decide

/-! ## C10: the protected handlers find `userID` -/

theorem respondWritten_ne_panic (d : Option DB) (status : Nat) (payload : Payload) :
    respondWritten d status payload ≠ .panic := by
  cases d <;> simp [respondWritten, respondJSON]

theorem createPost_no_panic (now : Time) (c : Context) (db : DB) (u : Nat)
    (hu : c.MustGetUint "userID" = some u) : createPostHandler now c db ≠ .panic := by
  unfold createPostHandler
  cases bindPost c.body with
  | error e => simp [respondError]
  | ok req =>
    simp only [hu]
    cases db.createPost now ⟨0, req.Title, req.Content, u, User.zero, 0, 0⟩ with
    | error e => simp [respondError]
    | ok r => exact respondWritten_ne_panic _ _ _

theorem updatePost_no_panic (now : Time) (c : Context) (db : DB) (u : Nat)
    (hu : c.MustGetUint "userID" = some u) : updatePostHandler now c db ≠ .panic := by
  unfold updatePostHandler
  cases parseUintParam c with
  | none => simp [respondError]
  | some id =>
    dsimp only
    cases db.firstPost id with
    | error e => cases e <;> simp [respondError]
    | ok post =>
      simp only [hu]
      by_cases hown : (post.UserID != u) = true
      · simp [hown, respondError]
      · simp only [hown]
        cases bindPost c.body with
        | error e => simp [respondError]
        | ok req =>
          dsimp only
          cases db.savePost now { post with Title := req.Title, Content := req.Content } with
          | error e => simp [respondError]
          | ok r => exact respondWritten_ne_panic _ _ _

theorem deletePost_no_panic (c : Context) (db : DB) (u : Nat)
    (hu : c.MustGetUint "userID" = some u) : deletePostHandler c db ≠ .panic := by
  unfold deletePostHandler
  cases parseUintParam c with
  | none => simp [respondError]
  | some id =>
    dsimp only
    cases db.firstPost id with
    | error e => cases e <;> simp [respondError]
    | ok post =>
      simp only [hu]
      by_cases hown : (post.UserID != u) = true
      · simp [hown, respondError]
      · simp only [hown]
        cases db.deletePost post with
        | error e => simp [respondError]
        | ok r => simp [respondJSON]

theorem createComment_no_panic (now : Time) (c : Context) (db : DB) (u : Nat)
    (hu : c.MustGetUint "userID" = some u) : createCommentHandler now c db ≠ .panic := by
  unfold createCommentHandler
  cases parseUintParam c with
  | none => simp [respondError]
  | some id =>
    dsimp only
    cases db.firstPost id with
    | error e => cases e <;> simp [respondError]
    | ok post =>
      dsimp only
      cases bindComment c.body with
      | error e => simp [respondError]
      | ok req =>
        simp only [hu]
        cases db.createComment now ⟨0, req.Content, u, User.zero, post.ID, 0⟩ with
        | error e => simp [respondError]
        | ok r => exact respondWritten_ne_panic _ _ _

theorem protected_no_panic (now : Time) (handler : Context → DB → Outcome)
    (hmem : handler ∈ protectedHandlers now) (c : Context) (db : DB) (u : Nat)
    (hu : c.MustGetUint "userID" = some u) : handler c db ≠ .panic := by
  simp only [protectedHandlers, List.mem_cons, List.mem_singleton, List.mem_nil_iff,
    or_false] at hmem
  rcases hmem with h | h | h | h <;> subst h
  · exact createPost_no_panic now c db u hu
  · exact updatePost_no_panic now c db u hu
  · exact deletePost_no_panic c db u hu
  · exact createComment_no_panic now c db u hu

theorem MustGetUint_after_Set (c : Context) (n : Nat) (name : String) :
    ((c.Set "userID" (.uint n)).Set "username" (.string name)).MustGetUint "userID" =
      some n := by
  simp [Context.MustGetUint, Get_userID_after_Set]

theorem authMiddleware_cases (lib : Lib) (env : String) (now : Time) (c : Context) (db : DB) :
    (∃ msg, msg ∈ ["missing authorization header", "invalid authorization header",
        "invalid or expired token"] ∧
      ∀ next, authMiddleware lib env now next c db = .respond 401 (.error msg) db) ∨
    (∃ scheme token claims, c.Authorization = scheme ++ " " ++ token ∧
      ToLower scheme = "bearer" ∧ parseToken lib env now token = .ok claims ∧
      ∀ next, authMiddleware lib env now next c db =
        next ((c.Set "userID" (.uint claims.UserID)).Set "username"
          (.string claims.Username)) db) := by
  by_cases h0 : c.Authorization = ""
  · exact Or.inl ⟨"missing authorization header", by simp, fun next => by
      simp [authMiddleware, h0, respondError]⟩
  · rcases SplitN2_cases c.Authorization with h1 | ⟨a, b, h2, hab⟩
    · refine Or.inl ⟨"invalid authorization header", by simp, fun next => ?_⟩
      unfold authMiddleware
      simp only [h0, if_false]
      rw [h1]
      rfl
    · by_cases hlow : ToLower a = "bearer"
      · cases hp : parseToken lib env now b with
        | error e =>
          exact Or.inl ⟨"invalid or expired token", by simp,
            (authMiddleware_bearer lib env now c db a b hab hlow).1 e hp⟩
        | ok claims =>
          exact Or.inr ⟨a, b, claims, hab, hlow, hp,
            (authMiddleware_bearer lib env now c db a b hab hlow).2 claims hp⟩
      · refine Or.inl ⟨"invalid authorization header", by simp, fun next => ?_⟩
        unfold authMiddleware
        simp only [h0, if_false]
        rw [h2]
        simp [hlow, respondError]

/-- C10: on each protected route (create post, update post, delete post,
create comment), for every request and store, the lookup
`c.MustGet("userID").(uint)` does not panic.  Either `authMiddleware` answers
401 with one of its three messages, whatever handler follows, the route
answers the same, the store is untouched, and the header of the request holds
no bearer token that `parseToken` accepts; or the header of the request is a
bearer scheme, a space and a token that `parseToken` accepts, and the route
answers what the handler answers on the context of the request with `userID`
set to the `UserID` claim of that token, as a `uint`, and `username` to its
`Username` claim, which is not a panic. -/
theorem C10_userID_never_missing (lib : Lib) (env : String) (nowAuth now : Time)
    (handler : Context → DB → Outcome) (hmem : handler ∈ protectedHandlers now)
    (c : Context) (db : DB) :
    protectedRoute lib env nowAuth handler c db ≠ .panic ∧
    ((∃ msg, msg ∈ ["missing authorization header", "invalid authorization header",
          "invalid or expired token"] ∧
        (∀ next, authMiddleware lib env nowAuth next c db =
          .respond 401 (.error msg) db) ∧
        protectedRoute lib env nowAuth handler c db = .respond 401 (.error msg) db ∧
        ¬ ∃ scheme token claims, c.Authorization = scheme ++ " " ++ token ∧
          ToLower scheme = "bearer" ∧ parseToken lib env nowAuth token = .ok claims) ∨
     (∃ scheme token claims, c.Authorization = scheme ++ " " ++ token ∧
        ToLower scheme = "bearer" ∧ parseToken lib env nowAuth token = .ok claims ∧
        protectedRoute lib env nowAuth handler c db =
          handler ((c.Set "userID" (.uint claims.UserID)).Set "username"
            (.string claims.Username)) db ∧
        ((c.Set "userID" (.uint claims.UserID)).Set "username"
            (.string claims.Username)).Get "userID" = some (.uint claims.UserID) ∧
        ((c.Set "userID" (.uint claims.UserID)).Set "username"
            (.string claims.Username)).MustGetUint "userID" = some claims.UserID ∧
        handler ((c.Set "userID" (.uint claims.UserID)).Set "username"
            (.string claims.Username)) db ≠ .panic)) := by
  rcases authMiddleware_cases lib env nowAuth c db with
    ⟨msg, hmsg, h⟩ | ⟨scheme, token, claims, hform, hlow, hp, h⟩
  · have hroute : protectedRoute lib env nowAuth handler c db =
        .respond 401 (.error msg) db := h handler
    refine ⟨by rw [hroute]; simp, Or.inl ⟨msg, hmsg, h, hroute, ?_⟩⟩
    rintro ⟨scheme, token, claims, hform, hlow, hp⟩
    have hrun := (authMiddleware_bearer lib env nowAuth c db scheme token hform hlow).2
      claims hp (fun _ _ => .panic)
    rw [h (fun _ _ => .panic)] at hrun
    simp at hrun
  · have hroute : protectedRoute lib env nowAuth handler c db =
        handler ((c.Set "userID" (.uint claims.UserID)).Set "username"
          (.string claims.Username)) db := h handler
    have hsafe := protected_no_panic now handler hmem
      ((c.Set "userID" (.uint claims.UserID)).Set "username" (.string claims.Username)) db
      claims.UserID (MustGetUint_after_Set c _ _)
    exact ⟨by rw [hroute]; exact hsafe,
      Or.inr ⟨scheme, token, claims, hform, hlow, hp, hroute, Get_userID_after_Set c _ _,
        MustGetUint_after_Set c _ _, hsafe⟩⟩

theorem C10_userID_never_missing_witness :
    createPostHandler 10 ∈ protectedHandlers 10 ∧
    protectedRoute toyLib "" 5000000000 (createPostHandler 10) requestC10 storeAnn ≠ .panic ∧
    protectedRoute toyLib "" 5000000000 (createPostHandler 10) requestC10 storeAnn =
      .respond 201 (.post ⟨1, "t", "c", 1, User.zero, 10, 10⟩) storePost :=
  ⟨by simp [protectedHandlers],
   (C10_userID_never_missing toyLib "" 5000000000 10 (createPostHandler 10)
      (by simp [protectedHandlers]) requestC10 storeAnn).1,
   by decide⟩

end Blog
